import Mathlib

/-!
Verification of the devops-feed-hub RSS aggregator.

The repository is a Python static-site feed aggregator.  This file gives a
shallow embedding of its decision logic, translated from the source files:

* `.github/actions/collect-rss-feeds/utils.py` (`generate_feed_slug`,
  `get_article_sort_key`, `sort_articles_by_date`),
* `.github/actions/collect-rss-feeds/collect_feeds.py` (`parse_rss_feed`
  entry processing, `main` aggregation loop),
* `.github/actions/collect-rss-feeds/generate_rss.py` (`format_rfc822_date`,
  `create_rss_feed`, `generate_master_feed`, `generate_individual_feed`,
  `generate_all_feeds`),
* `.github/actions/collect-rss-feeds/generate_summary.py`
  (`generate_markdown_summary`, `generate_feed_nav`,
  `generate_failed_feeds_content`, `generate_feed_articles_content`,
  `generate_html_page`, `generate_all_pages`).

Embedding conventions:

* Python strings are embedded as `List Char` (and wrapped into `String` only
  at the outermost API).  Character classification (`isalnum`, `lower`) is
  embedded with Lean's ASCII `Char.isAlphanum` / `Char.toLower`, which agree
  with Python on the ASCII range that feed names and the repository's test
  data use.
* `datetime` values are embedded as `Nat` counting seconds (the code compares
  naive UTC datetimes with `>` and subtracts `timedelta(hours=...)`; both are
  faithfully mirrored on seconds).  `datetime.min` is the minimal value `0`.
* A JSON `published` field is a string that the code inspects only through
  (a) equality with the literal `"Unknown"`, (b) truthiness, and (c) an
  attempted ISO-8601 parse.  It is embedded as the inductive `PubField`:
  `iso t` is a well-formed ISO timestamp string denoting instant `t`,
  `unknown` is the literal `"Unknown"`, and `malformed s` is any other,
  unparseable string `s`.  The ISO textual form itself is abstracted by the
  injective rendering `isoRender` (a decimal rendering of the instant); no
  claim below depends on the concrete ISO syntax, only on parseability,
  on escaping, and on which instant a string denotes.
* RFC-822 / human-readable date renderings are likewise abstracted by
  injective renderings from the instant; `strftime` is injective at
  second granularity, which is all the claims use.
* Fallible code returns `Option`; the network fetch performed by
  `parse_rss_feed` is an oracle parameter of the aggregation loop.
-/

namespace FeedHub

/-! ## Decimal rendering of integers (Python `str(n)` / f-string interpolation) -/

/-- One decimal digit character. -/
def digitChar (d : Nat) : Char :=
  if d = 0 then '0' else if d = 1 then '1' else if d = 2 then '2'
  else if d = 3 then '3' else if d = 4 then '4' else if d = 5 then '5'
  else if d = 6 then '6' else if d = 7 then '7' else if d = 8 then '8' else '9'

/-- Decimal digits of `n`, most significant first (auxiliary, structural
recursion on a fuel bound). -/
def natCharsAux : Nat → Nat → List Char
  | 0, _ => []
  | fuel + 1, n =>
    if n < 10 then [digitChar n]
    else natCharsAux fuel (n / 10) ++ [digitChar (n % 10)]

/-- Decimal rendering of a natural number, as Python's `str(n)`. -/
def natToChars (n : Nat) : List Char := natCharsAux (n + 1) n

/-- Every character emitted by `digitChar` is a decimal digit. -/
theorem digitChar_isDigit (d : Nat) : (digitChar d).isDigit = true := by
  unfold digitChar
  repeat' split
  all_goals decide

/-- Decimal renderings consist of digit characters only. -/
theorem natCharsAux_digits (fuel n : Nat) :
    ∀ c ∈ natCharsAux fuel n, c.isDigit = true := by
  induction fuel generalizing n with
  | zero => intro c hc; simp [natCharsAux] at hc
  | succ fuel ih =>
    intro c hc
    unfold natCharsAux at hc
    split at hc
    · simp at hc; subst hc; exact digitChar_isDigit n
    · rcases List.mem_append.mp hc with h | h
      · exact ih _ c h
      · simp at h; subst h; exact digitChar_isDigit _

/-- `natToChars` renders only digit characters. -/
theorem natToChars_digits (n : Nat) : ∀ c ∈ natToChars n, c.isDigit = true :=
  natCharsAux_digits (n + 1) n

/-! ## Slug generator (`utils.py::generate_feed_slug`, duplicated verbatim
in `generate_summary.py::generate_feed_slug`)

```python
feed_slug = feed_name.lower().replace(" ", "-").replace("/", "-")
feed_slug = "".join(c if c.isalnum() or c == "-" else "" for c in feed_slug)
while "--" in feed_slug:
    feed_slug = feed_slug.replace("--", "-")
feed_slug = feed_slug.strip("-")
```
-/

/-- Python `s.replace("--", "-")`: one left-to-right pass replacing every
non-overlapping occurrence of two hyphens by one. -/
def replaceDD : List Char → List Char
  | [] => []
  | [c] => [c]
  | c1 :: c2 :: rest =>
    if c1 = '-' ∧ c2 = '-' then '-' :: replaceDD rest
    else c1 :: replaceDD (c2 :: rest)

/-- Python `"--" in s`: does the list contain two adjacent hyphens? -/
def hasDD : List Char → Bool
  | [] => false
  | [_] => false
  | c1 :: c2 :: rest =>
    if c1 = '-' ∧ c2 = '-' then true else hasDD (c2 :: rest)

/-- The replacement pass never lengthens the string. -/
theorem replaceDD_length_le (l : List Char) :
    (replaceDD l).length ≤ l.length := by
  induction l using replaceDD.induct with
  | case1 => simp [replaceDD]
  | case2 c => simp [replaceDD]
  | case3 c1 c2 rest h ih =>
    simp only [replaceDD, if_pos h, List.length_cons]
    omega
  | case4 c1 c2 rest h ih =>
    simp only [replaceDD, if_neg h, List.length_cons]
    simp only [List.length_cons] at ih
    omega

/-- When a double hyphen is present, the replacement pass strictly shortens
the string (termination measure of the `while` loop). -/
theorem replaceDD_length_lt (l : List Char) (h : hasDD l = true) :
    (replaceDD l).length < l.length := by
  induction l using replaceDD.induct with
  | case1 => simp [hasDD] at h
  | case2 c => simp [hasDD] at h
  | case3 c1 c2 rest hdd ih =>
    simp only [replaceDD, if_pos hdd, List.length_cons]
    have := replaceDD_length_le rest
    omega
  | case4 c1 c2 rest hdd ih =>
    simp only [hasDD, if_neg hdd] at h
    simp only [replaceDD, if_neg hdd, List.length_cons]
    have := ih h
    simp only [List.length_cons] at this ⊢
    omega

/-- Characters of the replacement pass all come from the input. -/
theorem replaceDD_subset (l : List Char) : ∀ c ∈ replaceDD l, c ∈ l := by
  induction l using replaceDD.induct with
  | case1 => simp [replaceDD]
  | case2 c => simp [replaceDD]
  | case3 c1 c2 rest h ih =>
    intro c hc
    simp only [replaceDD, if_pos h, List.mem_cons] at hc
    rcases hc with hc | hc
    · subst hc; simp [h.1]
    · simp [ih c hc]
  | case4 c1 c2 rest h ih =>
    intro c hc
    simp only [replaceDD, if_neg h, List.mem_cons] at hc
    rcases hc with hc | hc
    · simp [hc]
    · have := ih c hc
      simp only [List.mem_cons] at this ⊢
      tauto

/-- The `while "--" in feed_slug` loop of `generate_feed_slug`, written with
an explicit fuel bound so that it is structural (hence kernel-computable).
`collapseDashes` below supplies fuel `l.length`, which is enough because each
iteration strictly shortens the string (`replaceDD_length_lt`). -/
def collapseDashesAux : Nat → List Char → List Char
  | 0, l => l
  | fuel + 1, l => if hasDD l then collapseDashesAux fuel (replaceDD l) else l

/-- The `while "--" in feed_slug` loop of `generate_feed_slug`. -/
def collapseDashes (l : List Char) : List Char := collapseDashesAux l.length l

/-- With enough fuel the collapse loop runs to completion: no double hyphen
remains. -/
theorem collapseDashesAux_noDD (fuel : Nat) :
    ∀ l : List Char, l.length ≤ fuel → hasDD (collapseDashesAux fuel l) = false := by
  induction fuel with
  | zero =>
    intro l hl
    have : l = [] := List.eq_nil_of_length_eq_zero (Nat.le_zero.mp hl)
    subst this
    simp [collapseDashesAux, hasDD]
  | succ fuel ih =>
    intro l hl
    unfold collapseDashesAux
    split
    next h =>
      exact ih (replaceDD l) (by have := replaceDD_length_lt l h; omega)
    next h => simpa using h

/-- The collapse loop terminates only once no double hyphen remains. -/
theorem collapseDashes_noDD (l : List Char) : hasDD (collapseDashes l) = false :=
  collapseDashesAux_noDD l.length l (Nat.le_refl _)

/-- Characters of the collapsed string all come from the input. -/
theorem collapseDashesAux_subset (fuel : Nat) :
    ∀ l : List Char, ∀ c ∈ collapseDashesAux fuel l, c ∈ l := by
  induction fuel with
  | zero => intro l c hc; simpa [collapseDashesAux] using hc
  | succ fuel ih =>
    intro l c hc
    unfold collapseDashesAux at hc
    split at hc
    · exact replaceDD_subset l c (ih (replaceDD l) c hc)
    · exact hc

/-- Characters of the collapsed string all come from the input. -/
theorem collapseDashes_subset (l : List Char) : ∀ c ∈ collapseDashes l, c ∈ l :=
  collapseDashesAux_subset l.length l

/-- Python `s.strip("-")`: drop leading and trailing hyphens. -/
def stripDashes (l : List Char) : List Char :=
  ((l.dropWhile (fun c => c = '-')).reverse.dropWhile (fun c => c = '-')).reverse

/-- `generate_feed_slug`, character-list level: lowercase, turn spaces and
slashes into hyphens, keep only alphanumerics and hyphens, collapse runs of
hyphens, strip hyphens at the ends. -/
def slugChars (l : List Char) : List Char :=
  stripDashes (collapseDashes
    ((((l.map Char.toLower).map
        (fun c => if c = ' ' then '-' else c)).map
        (fun c => if c = '/' then '-' else c)).filter
        (fun c => c.isAlphanum || c = '-')))

/-- `utils.py::generate_feed_slug` (identical copy in `generate_summary.py`). -/
def generate_feed_slug (s : String) : String := ⟨slugChars s.data⟩

/-- `hasDD` detects exactly the presence of two adjacent hyphens. -/
theorem hasDD_iff (l : List Char) :
    hasDD l = true ↔ ∃ l1 l2, l = l1 ++ '-' :: '-' :: l2 := by
  induction l using hasDD.induct with
  | case1 =>
    simp only [hasDD]
    constructor
    · intro h; exact absurd h (by simp)
    · rintro ⟨l1, l2, h⟩; exact absurd h (by simp)
  | case2 c =>
    simp only [hasDD]
    constructor
    · intro h; exact absurd h (by simp)
    · rintro ⟨l1, l2, h⟩
      rcases l1 with _ | ⟨x, l1⟩ <;> simp_all
  | case3 c1 c2 rest h =>
    simp only [hasDD, if_pos h]
    constructor
    · intro _
      exact ⟨[], rest, by simp [h.1, h.2]⟩
    · intro _; trivial
  | case4 c1 c2 rest h ih =>
    simp only [hasDD, if_neg h]
    rw [ih]
    constructor
    · rintro ⟨l1, l2, hl⟩
      exact ⟨c1 :: l1, l2, by simp [hl]⟩
    · rintro ⟨l1, l2, hl⟩
      rcases l1 with _ | ⟨x, l1⟩
      · simp only [List.nil_append, List.cons.injEq] at hl
        exact absurd ⟨hl.1, hl.2.1⟩ h
      · simp only [List.cons_append, List.cons.injEq] at hl
        exact ⟨l1, l2, hl.2⟩

/-- A hyphen-free-of-doubles string stays so under reversal. -/
theorem hasDD_reverse (l : List Char) : hasDD l.reverse = hasDD l := by
  by_cases h : hasDD l = true
  · rw [h]
    rcases (hasDD_iff l).mp h with ⟨l1, l2, rfl⟩
    apply (hasDD_iff _).mpr
    exact ⟨l2.reverse, l1.reverse, by simp⟩
  · rw [Bool.not_eq_true] at h
    rw [h]
    rw [Bool.eq_false_iff]
    intro hr
    rcases (hasDD_iff _).mp hr with ⟨l1, l2, hl⟩
    have : l = l2.reverse ++ '-' :: '-' :: l1.reverse := by
      have := congrArg List.reverse hl
      simpa using this
    exact absurd ((hasDD_iff l).mpr ⟨_, _, this⟩) (by simp [h])

/-- Double hyphens in a suffix are double hyphens of the whole list. -/
theorem hasDD_of_suffix {a b : List Char} (h : hasDD b = true) :
    hasDD (a ++ b) = true := by
  rcases (hasDD_iff b).mp h with ⟨l1, l2, rfl⟩
  exact (hasDD_iff _).mpr ⟨a ++ l1, l2, by simp⟩

/-- `dropWhile` leaves an element at the head only if it fails the predicate. -/
theorem head_dropWhile_false {p : Char → Bool} :
    ∀ (l : List Char) (a : Char), (l.dropWhile p).head? = some a → p a = false := by
  intro l
  induction l with
  | nil => intro a h; simp [List.dropWhile] at h
  | cons c rest ih =>
    intro a h
    rw [List.dropWhile_cons] at h
    split at h
    · exact ih a h
    · simp only [List.head?_cons, Option.some.injEq] at h
      subst h
      simpa using ‹¬ p c = true›

/-- `dropWhile` over a list ending in an element failing the predicate keeps
that final element. -/
theorem dropWhile_append_last {p : Char → Bool} (a : Char) (ha : p a = false) :
    ∀ l : List Char, (l ++ [a]).dropWhile p = l.dropWhile p ++ [a] := by
  intro l
  induction l with
  | nil => simp [List.dropWhile, ha]
  | cons c rest ih =>
    rw [List.cons_append, List.dropWhile_cons, List.dropWhile_cons]
    split <;> simp [ih]

/-- `stripDashes` output: characters come from the input. -/
theorem stripDashes_subset (l : List Char) : ∀ c ∈ stripDashes l, c ∈ l := by
  intro c hc
  unfold stripDashes at hc
  rw [List.mem_reverse] at hc
  have h1 := (List.dropWhile_sublist (l := (l.dropWhile fun c => c = '-').reverse)
    (p := fun c => c = '-')).mem hc
  rw [List.mem_reverse] at h1
  exact (List.dropWhile_sublist (l := l) (p := fun c => c = '-')).mem h1

/-- `stripDashes` never returns a leading hyphen. -/
theorem stripDashes_head (l : List Char) :
    (stripDashes l).head? ≠ some '-' := by
  intro h
  unfold stripDashes at h
  set l1 := l.dropWhile (fun c => c = '-') with hl1
  rcases hhead : l1.head? with _ | a
  · rw [List.head?_eq_none_iff] at hhead
    rw [hhead] at h
    simp at h
  · have ha : (fun c => decide (c = '-')) a = false := head_dropWhile_false l a (by rw [← hl1, hhead])
    rcases List.head?_eq_some_iff.mp hhead with ⟨rest, hrest⟩
    rw [hrest] at h
    have : (a :: rest).reverse = rest.reverse ++ [a] := by simp
    rw [this, dropWhile_append_last a ha, List.reverse_append] at h
    simp only [List.reverse_cons, List.reverse_nil, List.nil_append, List.singleton_append,
      List.head?_cons, Option.some.injEq] at h
    subst h
    simp at ha

/-- `stripDashes` never returns a trailing hyphen. -/
theorem stripDashes_getLast (l : List Char) :
    (stripDashes l).getLast? ≠ some '-' := by
  intro h
  unfold stripDashes at h
  rw [List.getLast?_reverse] at h
  have := head_dropWhile_false _ _ h
  simp at this

/-- `stripDashes` cannot introduce a double hyphen. -/
theorem stripDashes_noDD (l : List Char) (h : hasDD l = false) :
    hasDD (stripDashes l) = false := by
  unfold stripDashes
  rw [hasDD_reverse]
  rw [Bool.eq_false_iff]
  intro habs
  have h2 : hasDD (l.dropWhile fun c => c = '-').reverse = true := by
    rw [← List.takeWhile_append_dropWhile (p := fun c => c = '-')
      (l := (l.dropWhile fun c => c = '-').reverse)]
    exact hasDD_of_suffix habs
  rw [hasDD_reverse] at h2
  have h3 : hasDD l = true := by
    rw [← List.takeWhile_append_dropWhile (p := fun c => c = '-') (l := l)]
    exact hasDD_of_suffix h2
  rw [h3] at h
  exact absurd h (by simp)

/-- Valid code points below the surrogate range round-trip through
`Char.ofNat`. -/
theorem val_toNat_ofNat (n : Nat) (h : n < 0xd800) :
    (Char.ofNat n).val.toNat = n := by
  rw [Char.ofNat, dif_pos (Or.inl h)]
  rfl

/-- `UInt32` order agrees with the order of the underlying naturals. -/
theorem uint32_le_iff (a b : UInt32) : a ≤ b ↔ a.toNat ≤ b.toNat := by
  rw [UInt32.le_def, BitVec.le_def]
  exact Iff.rfl

/-- Python `str.lower` never leaves an upper-case ASCII letter behind. -/
theorem isUpper_toLower (c : Char) : (Char.toLower c).isUpper = false := by
  unfold Char.toLower
  simp only []
  split
  next h =>
    have hv : (Char.ofNat (Char.toNat c + 32)).val.toNat = Char.toNat c + 32 :=
      val_toNat_ofNat _ (by omega)
    simp only [Char.isUpper, Bool.and_eq_false_iff]
    right
    rw [decide_eq_false_iff_not, uint32_le_iff, hv]
    have h90 : ((90 : UInt32)).toNat = 90 := by decide
    rw [h90]
    omega
  next h =>
    simp only [Char.isUpper, Bool.and_eq_false_iff]
    by_cases h65 : 65 ≤ c.toNat
    · right
      rw [decide_eq_false_iff_not, uint32_le_iff]
      have h90 : ((90 : UInt32)).toNat = 90 := by decide
      rw [h90]
      have : ¬ c.toNat ≤ 90 := by omega
      simpa [Char.toNat] using this
    · left
      rw [decide_eq_false_iff_not, ge_iff_le, uint32_le_iff]
      have h65' : ((65 : UInt32)).toNat = 65 := by decide
      rw [h65']
      simpa [Char.toNat] using h65

/-- Every character surviving the space/slash replacement of a lowered string
is a hyphen or a non-upper-case character. -/
theorem mapped_notUpper (l : List Char) :
    ∀ c ∈ ((l.map Char.toLower).map
        (fun c => if c = ' ' then '-' else c)).map
        (fun c => if c = '/' then '-' else c),
      c.isUpper = false := by
  intro c hc
  simp only [List.mem_map] at hc
  rcases hc with ⟨b, ⟨a, ⟨x, _, hx⟩, hb⟩, hcc⟩
  subst hx hb hcc
  split
  · decide
  · split
    · decide
    · exact isUpper_toLower x

/-- C3 — Slug generator postcondition: every slug consists only of lower-case
alphanumerics and hyphens, never begins or ends with a hyphen, never contains
two consecutive hyphens, and the three example inputs map to the stated
outputs. -/
theorem C3_slug_postcondition :
    (∀ s : String, ∀ c ∈ (generate_feed_slug s).data,
      c = '-' ∨ (c.isAlphanum = true ∧ c.isUpper = false)) ∧
    (∀ s : String, (generate_feed_slug s).data.head? ≠ some '-' ∧
      (generate_feed_slug s).data.getLast? ≠ some '-') ∧
    (∀ s : String, hasDD (generate_feed_slug s).data = false) ∧
    generate_feed_slug "Microsoft DevOps Blog" = "microsoft-devops-blog" ∧
    generate_feed_slug "Test--Multi---Dash" = "test-multi-dash" ∧
    generate_feed_slug "Test@#$%Feed" = "testfeed" := by
  refine ⟨?_, ?_, ?_, by decide, by decide, by decide⟩
  · intro s c hc
    unfold generate_feed_slug slugChars at hc
    simp only [String.data] at hc
    have h1 := stripDashes_subset _ c hc
    have h2 := collapseDashes_subset _ c h1
    rw [List.mem_filter] at h2
    rcases h2 with ⟨hmem, hpred⟩
    simp only [Bool.or_eq_true, decide_eq_true_eq] at hpred
    rcases hpred with halnum | hdash
    · exact Or.inr ⟨halnum, mapped_notUpper _ c hmem⟩
    · exact Or.inl hdash
  · intro s
    exact ⟨stripDashes_head _, stripDashes_getLast _⟩
  · intro s
    exact stripDashes_noDD _ (collapseDashes_noDD _)

/-- C3 witness: the membership hypothesis discharged at a concrete slug
character. -/
theorem C3_slug_postcondition_witness :
    'd' = '-' ∨ ('d'.isAlphanum = true ∧ 'd'.isUpper = false) :=
  C3_slug_postcondition.1 "DevOps" 'd' (by decide)

/-! ## Data model (§3 of the spec; the JSON collection artifact)

A JSON `published`/`collected_at` string is classified by how the code can
observe it: a well-formed ISO-8601 timestamp denoting instant `t` (seconds,
`datetime.min = 0`), the literal `"Unknown"`, or any other (unparseable,
possibly empty) string. -/

inductive PubField where
  | iso (t : Nat)
  | unknown
  | malformed (s : List Char)
  deriving DecidableEq, Repr

/-- The raw character content of a `published` string (the concrete ISO-8601
syntax of `iso t` is abstracted by the injective decimal rendering of the
instant; no claim depends on its exact shape). -/
def PubField.raw : PubField → List Char
  | .iso t => natToChars t
  | .unknown => "Unknown".data
  | .malformed s => s

/-- Python truthiness of the `published` string (`""` is falsy). -/
def PubField.truthy : PubField → Bool
  | .iso _ => true
  | .unknown => true
  | .malformed s => ¬ s = []

/-- One collected article (`{title, link, published}`). -/
structure Article where
  title : List Char
  link : List Char
  published : PubField
  deriving DecidableEq, Repr

/-- One successfully fetched feed (`{url, articles, count}` value of the
`feeds` mapping). -/
structure FeedResult where
  url : List Char
  articles : List Article
  count : Nat
  deriving DecidableEq, Repr

/-- One failed feed (`{name, url, error}`). -/
structure FailedFeed where
  name : List Char
  url : List Char
  error : List Char
  deriving DecidableEq, Repr

/-- The `summary` block of the collection artifact. -/
structure Summary where
  total_feeds : Nat
  successful_feeds : Nat
  failed_feeds : Nat
  total_articles : Nat
  deriving DecidableEq, Repr

/-- The collection artifact (`CollectionReport`): `metadata` is inlined as
`collected_at`/`hours` (the renderers read no other metadata field), `feeds`
is the insertion-ordered JSON object as an association list. -/
structure Report where
  collected_at : PubField
  hours : Nat
  feeds : List (List Char × FeedResult)
  failed_feeds : List FailedFeed
  summary : Summary
  deriving DecidableEq, Repr

/-! ## Entry filtering (`collect_feeds.py::parse_rss_feed`, lines 49-78)

One parsed feed entry, as `feedparser` hands it to the loop: optional title
and link (`entry.get("title", "No title")`, `entry.get("link", "")`) and the
optional normalized timestamps `published_parsed` / `updated_parsed`. -/

structure Entry where
  title : Option (List Char)
  link : Option (List Char)
  published_parsed : Option Nat
  updated_parsed : Option Nat
  deriving DecidableEq, Repr

/-- The normalized timestamp: `published_parsed`, falling back to
`updated_parsed` (the `if`/`elif` at lines 55-62). -/
def entryPubDate (e : Entry) : Option Nat :=
  match e.published_parsed with
  | some t => some t
  | none => e.updated_parsed

/-- The body of the entry loop: keep an entry strictly newer than
`since_time` with its timestamp serialized (in ISO form, `.iso`), drop a
dated entry at or before the cutoff, and keep an undated entry with the
marker `"Unknown"`. -/
def processEntry (since_time : Nat) (e : Entry) : Option Article :=
  let title := e.title.getD "No title".data
  let link := e.link.getD []
  match entryPubDate e with
  | some p => if p > since_time then some ⟨title, link, .iso p⟩ else none
  | none => some ⟨title, link, .unknown⟩

/-- The entry loop of `parse_rss_feed`: the `articles` list it accumulates. -/
def parseEntries (since_time : Nat) (entries : List Entry) : List Article :=
  entries.filterMap (processEntry since_time)

/-- C1 — Article filtering: an article produced from an entry is in the
returned list exactly when some entry produces it; a dated entry is kept iff
its normalized timestamp is strictly greater than the cutoff, and then with
that timestamp serialized in ISO form; an undated entry is always kept with
the `"Unknown"` marker. -/
theorem C1_article_filter :
    (∀ (t : Nat) (entries : List Entry) (a : Article),
      a ∈ parseEntries t entries ↔ ∃ e ∈ entries, processEntry t e = some a) ∧
    (∀ (t : Nat) (e : Entry) (p : Nat), entryPubDate e = some p →
      ((processEntry t e).isSome = true ↔ p > t) ∧
      (p > t →
        processEntry t e = some ⟨e.title.getD "No title".data, e.link.getD [], .iso p⟩) ∧
      (¬ p > t → processEntry t e = none)) ∧
    (∀ (t : Nat) (e : Entry), entryPubDate e = none →
      processEntry t e = some ⟨e.title.getD "No title".data, e.link.getD [], .unknown⟩) := by
  refine ⟨?_, ?_, ?_⟩
  · intro t entries a
    unfold parseEntries
    exact List.mem_filterMap
  · intro t e p hp
    refine ⟨?_, ?_, ?_⟩ <;> simp only [processEntry, hp] <;>
      by_cases hgt : p > t <;> simp [hgt]
  · intro t e hp
    simp only [processEntry, hp]

/-- C1 witness: a dated entry strictly after the cutoff is kept, serialized
in ISO form. -/
theorem C1_article_filter_witness :
    processEntry 3 ⟨some "a".data, some "l".data, some 5, none⟩ =
      some ⟨"a".data, "l".data, .iso 5⟩ :=
  (C1_article_filter.2.1 3 ⟨some "a".data, some "l".data, some 5, none⟩ 5 rfl).2.1
    (by decide)

/-! ## Cutoff computation (`collect_feeds.py::main`, lines 130-135, and
`.github/scripts/fetch_rss_feeds.py::main`, lines 181-183)

The repository holds two collection runs.  The action collector widens the
window: `max_hours = max(args.hours, 720); since_time = now -
timedelta(hours=max_hours)`.  The standalone script does not:
`since_time = now - timedelta(hours=args.hours)`. -/

/-- The action collector's cutoff (`collect_feeds.py`, lines 132-135), on
seconds.  (Python would raise on an underflow below `datetime.min`; the
truncation of `Nat` subtraction is never exercised by the claims, which
assume `now` is at least `max_hours` hours after `datetime.min`.) -/
def computeCutoff (now : Nat) (hours : Nat) : Nat :=
  let max_hours := max hours 720
  now - max_hours * 3600

/-- The standalone script's cutoff (`fetch_rss_feeds.py`, line 182):
`now - timedelta(hours=args.hours)`, with no widening. -/
def scriptCutoff (now : Nat) (hours : Nat) : Nat :=
  now - hours * 3600

/-- C2 counterexample — the claim as frozen quantifies over both cited
collection runs, but `fetch_rss_feeds.py` computes `now − h` with no
`max(h, 720)` widening: for the script's default 24-hour window the cutoff
is not `now − max(24, 720)` hours. -/
theorem C2_cutoff_counterexample :
    scriptCutoff 10000000 24 ≠ 10000000 - (max 24 720) * 3600 := by decide

/-- C2 (amended) — Cutoff computation: the action collector's cutoff is
`now − max(hours, 720)` hours, so a window below 720 hours is widened to
exactly 720 hours and a larger one is used as requested; the standalone
script's cutoff is `now − hours` with no widening. -/
theorem C2_cutoff_amended (now hours : Nat) :
    ((max hours 720) * 3600 ≤ now →
      (hours ≤ 720 → computeCutoff now hours + 720 * 3600 = now) ∧
      (720 ≤ hours → computeCutoff now hours + hours * 3600 = now)) ∧
    (hours * 3600 ≤ now → scriptCutoff now hours + hours * 3600 = now) := by
  constructor
  · intro hnow
    unfold computeCutoff
    dsimp only
    constructor
    · intro h
      have hm : max hours 720 = 720 := by omega
      rw [hm] at hnow ⊢
      omega
    · intro h
      have hm : max hours 720 = hours := by omega
      rw [hm] at hnow ⊢
      omega
  · intro hnow
    unfold scriptCutoff
    omega

/-- C2 witness: a 24-hour request is widened to 720 hours by the action
collector and left at 24 hours by the standalone script. -/
theorem C2_cutoff_amended_witness :
    computeCutoff 10000000 24 + 720 * 3600 = 10000000 ∧
    scriptCutoff 10000000 24 + 24 * 3600 = 10000000 :=
  ⟨((C2_cutoff_amended 10000000 24).1 (by decide)).1 (by decide),
   (C2_cutoff_amended 10000000 24).2 (by decide)⟩

/-! ## The aggregation loop (`collect_feeds.py::main`, lines 163-197)

The network and `feedparser` are external: a fetch oracle maps a URL to
either the parsed entry list or an error message (the classified message
built by the `except` arms of `parse_rss_feed`; a bozo feed with no entries
is a failure). -/

inductive FetchOutcome where
  | entries (es : List Entry)
  | fail (err : List Char)
  deriving DecidableEq, Repr

/-- One element of the configuration's `feeds` array; `name`/`url` may be
absent (`feed.get("name", "Unknown")`, `feed.get("url", "")`). -/
structure ConfigEntry where
  name : Option (List Char)
  url : Option (List Char)
  deriving DecidableEq, Repr

/-- Python dict assignment `d[k] = v`: overwrite in place if the key exists
(keeping its position), else append. -/
def dictUpdate (m : List (List Char × FeedResult)) (k : List Char)
    (v : FeedResult) : List (List Char × FeedResult) :=
  match m with
  | [] => [(k, v)]
  | (k', v') :: rest =>
    if k' = k then (k, v) :: rest else (k', v') :: dictUpdate rest k v

/-- Mutable state of the feed loop: the `feeds` mapping, the `failed_feeds`
list and the `total_articles` accumulator. -/
structure CollectState where
  feeds : List (List Char × FeedResult)
  failed_feeds : List FailedFeed
  total_articles : Nat
  deriving DecidableEq, Repr

/-- One iteration of the `for feed in config.get("feeds", [])` loop:
skip a feed with no URL; on success record `{url, articles, count=len}` under
the feed name and accumulate the count; on failure append a `FailedFeed` with
the error reason (defaulted to `"Unknown"` when falsy). -/
def stepFeed (fetch : List Char → FetchOutcome) (since_time : Nat)
    (acc : CollectState) (e : ConfigEntry) : CollectState :=
  let feed_name := e.name.getD "Unknown".data
  let feed_url := e.url.getD []
  if feed_url = [] then acc
  else
    match fetch feed_url with
    | .entries es =>
      let articles := parseEntries since_time es
      { feeds := dictUpdate acc.feeds feed_name ⟨feed_url, articles, articles.length⟩,
        failed_feeds := acc.failed_feeds,
        total_articles := acc.total_articles + articles.length }
    | .fail err =>
      { feeds := acc.feeds,
        failed_feeds := acc.failed_feeds ++
          [⟨feed_name, feed_url, if err = [] then "Unknown".data else err⟩],
        total_articles := acc.total_articles }

/-- The whole feed loop, left to right over the configured list. -/
def collectLoop (fetch : List Char → FetchOutcome) (since_time : Nat)
    (config : List ConfigEntry) : CollectState :=
  config.foldl (stepFeed fetch since_time) ⟨[], [], 0⟩

/-- `collect_feeds.py::main`: run the loop and assemble the artifact with its
`summary` block (`total_feeds` counts the whole configured list). -/
def collectMain (fetch : List Char → FetchOutcome) (now hours : Nat)
    (config : List ConfigEntry) : Report :=
  let since_time := computeCutoff now hours
  let st := collectLoop fetch since_time config
  { collected_at := .iso now
    hours := max hours 720
    feeds := st.feeds
    failed_feeds := st.failed_feeds
    summary :=
      { total_feeds := config.length
        successful_feeds := st.feeds.length
        failed_feeds := st.failed_feeds.length
        total_articles := st.total_articles } }

/-- An entry with a missing or empty URL: `hasUrl` is the loop's guard. -/
def hasUrl (e : ConfigEntry) : Bool := ¬ e.url.getD [] = []

/-- Skipped entries leave the loop state untouched. -/
theorem stepFeed_skip (fetch : List Char → FetchOutcome) (since_time : Nat)
    (acc : CollectState) (e : ConfigEntry) (h : hasUrl e = false) :
    stepFeed fetch since_time acc e = acc := by
  unfold stepFeed
  unfold hasUrl at h
  simp only [decide_not, Bool.not_eq_false', decide_eq_true_eq] at h
  rw [if_pos h]

/-- The loop state only depends on the entries that carry a URL. -/
theorem collectLoop_filter (fetch : List Char → FetchOutcome) (since_time : Nat)
    (config : List ConfigEntry) :
    collectLoop fetch since_time config =
      collectLoop fetch since_time (config.filter hasUrl) := by
  unfold collectLoop
  generalize (⟨[], [], 0⟩ : CollectState) = init
  induction config generalizing init with
  | nil => rfl
  | cons e rest ih =>
    rcases h : hasUrl e with _ | _
    · rw [List.filter_cons_of_neg (by simp [h]), List.foldl_cons,
        stepFeed_skip fetch since_time init e h]
      exact ih init
    · rw [List.filter_cons_of_pos (by simp [h]), List.foldl_cons, List.foldl_cons]
      exact ih _

/-! The other cited collection run, `.github/scripts/fetch_rss_feeds.py::main`
(lines 202-214), has no URL guard:

```python
for feed in config['feeds']:
    feed_name = feed['name']
    feed_url = feed['url']
    articles = parse_rss_feed(feed_url, since_time)
    if articles is not None:
        results['successful'][feed_name] = articles
    else:
        results['failed'].append(feed_name)
```

A missing `name`/`url` key raises `KeyError` in `main` (outside any handler),
aborting the run; an empty `url` is handed to `parse_rss_feed`, whose
`urlopen("")` raises (caught by the script's blanket `except`), so the feed
lands in the `failed` list.  The articles payload is irrelevant to the claim
and left as a type parameter. -/

/-- Python dict assignment `d[k] = v`, generically: overwrite in place if the
key exists (keeping its position), else append. -/
def dictPut {α : Type} (m : List (List Char × α)) (k : List Char) (v : α) :
    List (List Char × α) :=
  match m with
  | [] => [(k, v)]
  | (k', v') :: rest =>
    if k' = k then (k, v) :: rest else (k', v') :: dictPut rest k v

/-- The feed loop of `fetch_rss_feeds.py::main`: `none` is a `KeyError`
abort; otherwise the state is the `successful` mapping and the `failed` name
list. -/
def scriptLoopAux {α : Type} (fetch : List Char → Option α)
    (acc : List (List Char × α) × List (List Char)) :
    List ConfigEntry → Option (List (List Char × α) × List (List Char))
  | [] => some acc
  | e :: rest =>
    match e.name, e.url with
    | some feed_name, some feed_url =>
      match fetch feed_url with
      | some articles =>
        scriptLoopAux fetch (dictPut acc.1 feed_name articles, acc.2) rest
      | none => scriptLoopAux fetch (acc.1, acc.2 ++ [feed_name]) rest
    | _, _ => none

/-- `fetch_rss_feeds.py::main`'s feed loop from the empty state. -/
def scriptMain {α : Type} (fetch : List Char → Option α)
    (config : List ConfigEntry) :
    Option (List (List Char × α) × List (List Char)) :=
  scriptLoopAux fetch ([], []) config

/-- C8 counterexample — the claim as frozen also covers the collection run of
`fetch_rss_feeds.py`, which contradicts it on both kinds of URL-less entry:
an entry with an empty URL is fetched, fails (`urlopen("")` raises, caught by
the blanket `except`, modelled by the oracle returning `none` on the empty
URL) and is recorded in the `failed` list; an entry with a missing `url` key
raises `KeyError` and aborts the run instead of continuing with the remaining
feeds. -/
theorem C8_skip_urlless_counterexample :
    scriptMain (fun _ => (none : Option Unit)) [⟨some "E".data, some []⟩] =
      some ([], ["E".data]) ∧
    scriptMain (fun _ => (none : Option Unit))
      [⟨some "M".data, none⟩, ⟨some "F".data, some "u".data⟩] = none := by
  refine ⟨?_, ?_⟩ <;> decide

/-- C8 (amended) — Skipping URL-less feeds, per collection run: in the action
collector (`collect_feeds.py`), an entry without a URL contributes to neither
the `feeds` mapping, the `failed_feeds` list nor the article total (the run
behaves as if the entry were absent, so the remaining feeds are still
processed), yet `summary.total_feeds` still counts it.  The standalone script
(`fetch_rss_feeds.py`) has no such guard: an entry with a missing `url` key
aborts its run, and an entry with an empty URL (whose fetch necessarily
fails) is appended to its `failed` list while the loop continues. -/
theorem C8_skip_urlless_amended :
    (∀ (fetch : List Char → FetchOutcome) (now hours : Nat)
      (config : List ConfigEntry),
      (collectMain fetch now hours config).feeds =
        (collectMain fetch now hours (config.filter hasUrl)).feeds ∧
      (collectMain fetch now hours config).failed_feeds =
        (collectMain fetch now hours (config.filter hasUrl)).failed_feeds ∧
      (collectMain fetch now hours config).summary.total_articles =
        (collectMain fetch now hours (config.filter hasUrl)).summary.total_articles ∧
      (collectMain fetch now hours config).summary.total_feeds = config.length) ∧
    (∀ (α : Type) (fetchS : List Char → Option α)
      (acc : List (List Char × α) × List (List Char)) (name : List Char)
      (rest : List ConfigEntry),
      scriptLoopAux fetchS acc (⟨some name, none⟩ :: rest) = none) ∧
    (∀ (α : Type) (fetchS : List Char → Option α)
      (acc : List (List Char × α) × List (List Char)) (name : List Char)
      (rest : List ConfigEntry), fetchS [] = none →
      scriptLoopAux fetchS acc (⟨some name, some []⟩ :: rest) =
        scriptLoopAux fetchS (acc.1, acc.2 ++ [name]) rest) := by
  refine ⟨?_, ?_, ?_⟩
  · intro fetch now hours config
    unfold collectMain
    dsimp only
    rw [collectLoop_filter fetch (computeCutoff now hours) config]
    exact ⟨rfl, rfl, rfl, rfl⟩
  · intro α fetchS acc name rest
    rfl
  · intro α fetchS acc name rest hf
    show (match fetchS [] with
      | some articles => scriptLoopAux fetchS (dictPut acc.1 name articles, acc.2) rest
      | none => scriptLoopAux fetchS (acc.1, acc.2 ++ [name]) rest) =
      scriptLoopAux fetchS (acc.1, acc.2 ++ [name]) rest
    rw [hf]

/-- C8 witness: the empty-URL step of the script discharged at a concrete
oracle, state and entry. -/
theorem C8_skip_urlless_amended_witness :
    scriptLoopAux (fun _ => (none : Option Unit)) ([], [])
        [⟨some "E".data, some []⟩] =
      scriptLoopAux (fun _ => (none : Option Unit)) ([], [] ++ ["E".data]) [] :=
  C8_skip_urlless_amended.2.2 Unit (fun _ => none) ([], []) "E".data [] rfl

/-- Values entering the `feeds` mapping satisfy `count = len(articles)`. -/
theorem dictUpdate_count (m : List (List Char × FeedResult)) (k : List Char)
    (v : FeedResult) (hm : ∀ p ∈ m, p.2.count = p.2.articles.length)
    (hv : v.count = v.articles.length) :
    ∀ p ∈ dictUpdate m k v, p.2.count = p.2.articles.length := by
  induction m with
  | nil =>
    intro p hp
    simp only [dictUpdate, List.mem_singleton] at hp
    subst hp
    exact hv
  | cons q rest ih =>
    intro p hp
    unfold dictUpdate at hp
    split at hp
    · rcases List.mem_cons.mp hp with h | h
      · subst h; exact hv
      · exact hm p (List.mem_cons_of_mem q h)
    · rcases List.mem_cons.mp hp with h | h
      · rw [h]; exact hm q (List.mem_cons_self q rest)
      · exact ih (fun r hr => hm r (List.mem_cons_of_mem q hr)) p h

/-- The loop preserves the count invariant of the `feeds` mapping. -/
theorem collectLoop_count (fetch : List Char → FetchOutcome) (since_time : Nat)
    (config : List ConfigEntry) :
    ∀ p ∈ (collectLoop fetch since_time config).feeds,
      p.2.count = p.2.articles.length := by
  unfold collectLoop
  have general : ∀ (init : CollectState),
      (∀ p ∈ init.feeds, p.2.count = p.2.articles.length) →
      ∀ p ∈ (config.foldl (stepFeed fetch since_time) init).feeds,
        p.2.count = p.2.articles.length := by
    induction config with
    | nil => intro init h; exact h
    | cons e rest ih =>
      intro init h
      rw [List.foldl_cons]
      refine ih _ ?_
      unfold stepFeed
      dsimp only
      split
      · exact h
      · split
        · exact dictUpdate_count _ _ _ h rfl
        · exact h
  exact general ⟨[], [], 0⟩ (by intro p hp; simp at hp)

/-- C9 — FeedResult count invariant: every entry of the `feeds` mapping of a
collector-produced report satisfies `count = length(articles)`. -/
theorem C9_count_invariant (fetch : List Char → FetchOutcome) (now hours : Nat)
    (config : List ConfigEntry) :
    ∀ p ∈ (collectMain fetch now hours config).feeds,
      p.2.count = p.2.articles.length := by
  unfold collectMain
  dsimp only
  exact collectLoop_count fetch (computeCutoff now hours) config

/-- C9 witness: the invariant read off a concrete one-feed run, with the
membership hypothesis discharged by evaluation. -/
theorem C9_count_invariant_witness :
    (("F".data, (⟨"u".data, [⟨"a".data, "l".data, .unknown⟩], 1⟩ : FeedResult)) :
        List Char × FeedResult).2.count =
      (("F".data, (⟨"u".data, [⟨"a".data, "l".data, .unknown⟩], 1⟩ : FeedResult)) :
        List Char × FeedResult).2.articles.length :=
  C9_count_invariant
    (fun _ => FetchOutcome.entries [⟨some "a".data, some "l".data, none, none⟩])
    10000000 24 [⟨some "F".data, some "u".data⟩] _ (by decide)

/-- The action collector's skip behaviour evaluated on a concrete two-entry
configuration (one entry URL-less): the URL-less entry is still counted in
`total_feeds` while the mapping and the failed list ignore it. -/
theorem C8_skip_urlless_example :
    let fetch := fun (_ : List Char) =>
      FetchOutcome.entries [⟨some "a".data, some "l".data, none, none⟩]
    let config : List ConfigEntry := [⟨some "NoUrl".data, none⟩, ⟨some "F".data, some "u".data⟩]
    (collectMain fetch 10000000 24 config).summary.total_feeds = 2 ∧
    (collectMain fetch 10000000 24 config).summary.successful_feeds = 1 ∧
    (collectMain fetch 10000000 24 config).failed_feeds = [] := by
  refine ⟨?_, ?_, ?_⟩ <;> decide

/-! ## Sorting by publication date

`utils.py::get_article_sort_key` and its verbatim local copies in
`generate_rss.py` (`get_sort_key` inside `generate_master_feed` /
`generate_individual_feed`): a parseable ISO timestamp sorts by its instant,
everything else (the literal `"Unknown"`, a falsy string, an unparseable
string) maps to `datetime.min`, i.e. the minimal instant `0`. -/

def sortKey (p : PubField) : Nat :=
  match p with
  | .iso t => t
  | .unknown => 0
  | .malformed _ => 0

/-- Python's `list.sort(key=..., reverse=True)` / `sorted(..., reverse=True)`
is the stable descending sort by the key: keys are non-increasing and
elements with equal keys keep their input order.  Embedded as a stable
insertion sort (extensionally the same permutation). -/
def insertDesc {α : Type} (key : α → Nat) (x : α) : List α → List α
  | [] => [x]
  | y :: rest => if key x < key y then y :: insertDesc key x rest else x :: y :: rest

/-- Stable descending insertion sort (see `insertDesc`). -/
def sortDesc {α : Type} (key : α → Nat) : List α → List α
  | [] => []
  | x :: xs => insertDesc key x (sortDesc key xs)

/-- Insertion produces a permutation of consing. -/
theorem insertDesc_perm {α : Type} (key : α → Nat) (x : α) :
    ∀ l : List α, List.Perm (insertDesc key x l) (x :: l) := by
  intro l
  induction l with
  | nil => simp [insertDesc]
  | cons y rest ih =>
    unfold insertDesc
    split
    · exact List.Perm.trans (List.Perm.cons y ih) (List.Perm.swap x y rest)
    · exact List.Perm.refl _

/-- The sort is a permutation of its input. -/
theorem sortDesc_perm {α : Type} (key : α → Nat) :
    ∀ l : List α, List.Perm (sortDesc key l) l := by
  intro l
  induction l with
  | nil => exact List.Perm.refl _
  | cons x xs ih =>
    unfold sortDesc
    exact List.Perm.trans (insertDesc_perm key x (sortDesc key xs)) (List.Perm.cons x ih)

/-- Insertion preserves descending-sortedness. -/
theorem insertDesc_sorted {α : Type} (key : α → Nat) (x : α) (l : List α)
    (hl : l.Pairwise (fun a b => key b ≤ key a)) :
    (insertDesc key x l).Pairwise (fun a b => key b ≤ key a) := by
  induction l with
  | nil => simp [insertDesc]
  | cons y rest ih =>
    rw [List.pairwise_cons] at hl
    unfold insertDesc
    split
    next hlt =>
      rw [List.pairwise_cons]
      constructor
      · intro b hb
        have := (insertDesc_perm key x rest).mem_iff.mp hb
        rcases List.mem_cons.mp this with h | h
        · rw [h]; omega
        · exact hl.1 b h
      · exact ih hl.2
    next hge =>
      rw [List.pairwise_cons]
      constructor
      · intro b hb
        rcases List.mem_cons.mp hb with h | h
        · rw [h]; omega
        · have := hl.1 b h
          omega
      · rw [List.pairwise_cons]
        exact hl


/-! ## RSS 2.0 generation (`generate_rss.py`)

`generate_master_feed` copies every article of every feed, adds the
originating feed name under the `source` key, sorts the copies newest first
and hands them to `create_rss_feed`, which lays the channel out in input
order.  The XML serialization itself (`xml.etree.ElementTree`) is external;
a channel is embedded structurally. -/

/-- An article as handed to `create_rss_feed`: the `source` key is present
exactly on the copies made by `generate_master_feed`. -/
structure SourcedArticle where
  title : List Char
  link : List Char
  published : PubField
  source : Option (List Char)
  deriving DecidableEq, Repr

/-- `article.copy()` plus `article_with_source["source"] = feed_name`. -/
def withSource (name : List Char) (a : Article) : SourcedArticle :=
  ⟨a.title, a.link, a.published, some name⟩

/-- An article passed through unchanged (`generate_individual_feed` hands the
stored articles over without a `source` key). -/
def plainArticle (a : Article) : SourcedArticle :=
  ⟨a.title, a.link, a.published, none⟩

/-- `format_rfc822_date`, on the classification of its input string: a
parseable ISO timestamp renders as its own instant, anything else falls back
to `datetime.now()` — the wall-clock instant `now`.  The RFC-822 text is
abstracted by the instant it displays (`strftime` with seconds is injective
on instants). -/
def formatRfc822 (now : Nat) (p : PubField) : Nat :=
  match p with
  | .iso t => t
  | .unknown => now
  | .malformed _ => now

/-- One `<item>` of a generated RSS channel: title, link, guid (the link),
the optional rendered `pubDate`, and the optional `source` element. -/
structure RssItem where
  title : List Char
  link : List Char
  guid : List Char
  pubDate : Option Nat
  source : Option (List Char)
  deriving DecidableEq, Repr

/-- A generated RSS 2.0 channel, structurally. -/
structure RssChannel where
  title : List Char
  link : List Char
  description : List Char
  lastBuildDate : Nat
  items : List RssItem
  deriving DecidableEq, Repr

/-- The per-article body of `create_rss_feed`'s item loop: `pubDate` is
emitted only for a truthy `published` different from `"Unknown"` (lines
117-121), `source` only when the key is present (lines 123-126). -/
def articleToItem (now : Nat) (a : SourcedArticle) : RssItem :=
  { title := a.title
    link := a.link
    guid := a.link
    pubDate :=
      if a.published.truthy ∧ ¬ a.published = .unknown then
        some (formatRfc822 now a.published)
      else none
    source := a.source }

/-- `create_rss_feed`: channel metadata plus the items in input order. -/
def create_rss_feed (now : Nat) (title link description : List Char)
    (articles : List SourcedArticle) (last_build_date : PubField) : RssChannel :=
  { title := title
    link := link
    description := description
    lastBuildDate := formatRfc822 now last_build_date
    items := articles.map (articleToItem now) }

/-- The `all_articles` list of `generate_master_feed` before sorting: every
article of every feed, tagged with its feed name, in mapping order. -/
def allArticles (feeds : List (List Char × FeedResult)) : List SourcedArticle :=
  feeds.bind (fun p => p.2.articles.map (withSource p.1))

/-- `all_articles` after `all_articles.sort(key=get_sort_key, reverse=True)`. -/
def masterArticles (r : Report) : List SourcedArticle :=
  sortDesc (fun a => sortKey a.published) (allArticles r.feeds)

/-- `generate_master_feed` (with the default `base_url`). -/
def generate_master_feed (now : Nat) (r : Report) : RssChannel :=
  create_rss_feed now
    "DevOps Feed Hub - All Articles".data
    "https://mudman1986.github.io/devops-feed-hub/feed.xml".data
    "Aggregated DevOps, cloud, and technology news from multiple sources".data
    (masterArticles r)
    r.collected_at

/-- `generate_individual_feed` (with the default `base_url`). -/
def generate_individual_feed (now : Nat) (feed_name : List Char)
    (feed_data : FeedResult) (collected_at : PubField) : RssChannel :=
  create_rss_feed now
    ("DevOps Feed Hub - ".data ++ feed_name)
    ("https://mudman1986.github.io/devops-feed-hub/feed-".data ++
      slugChars feed_name ++ ".xml".data)
    ("Articles from ".data ++ feed_name)
    (sortDesc (fun a => sortKey a.published) (feed_data.articles.map plainArticle))
    collected_at

/-- C4 — Master feed contents and order: the channel's items are exactly the
sorted tagged article list; that list is a permutation of all articles of all
feeds, each tagged with its feed name (so each appears exactly once and every
item carries its originating feed in `source`); the list is ordered by
non-increasing sort key (newest first); and any article at or after an
undated/unparseable one has the minimal key, i.e. undated articles sort last
as the oldest. -/
theorem C4_master_feed (now : Nat) (r : Report) :
    (generate_master_feed now r).items = (masterArticles r).map (articleToItem now) ∧
    List.Perm (masterArticles r)
      (r.feeds.bind (fun p => p.2.articles.map (withSource p.1))) ∧
    (∀ a ∈ masterArticles r, ∃ p ∈ r.feeds,
      a.source = some p.1 ∧ (⟨a.title, a.link, a.published⟩ : Article) ∈ p.2.articles) ∧
    (masterArticles r).Pairwise
      (fun a b => sortKey b.published ≤ sortKey a.published) ∧
    (∀ l1 a l2, masterArticles r = l1 ++ a :: l2 →
      (∀ t, ¬ a.published = .iso t) → ∀ b ∈ a :: l2, sortKey b.published = 0) := by
  have hperm : List.Perm (masterArticles r) (allArticles r.feeds) :=
    sortDesc_perm _ _
  have hsorted : (masterArticles r).Pairwise
      (fun a b => sortKey b.published ≤ sortKey a.published) := by
    unfold masterArticles
    generalize allArticles r.feeds = l
    induction l with
    | nil => simp [sortDesc]
    | cons x xs ih =>
      unfold sortDesc
      exact insertDesc_sorted _ x _ ih
  refine ⟨rfl, hperm, ?_, hsorted, ?_⟩
  · intro a ha
    have := hperm.mem_iff.mp ha
    unfold allArticles at this
    rw [List.mem_bind] at this
    rcases this with ⟨p, hp, hmem⟩
    rw [List.mem_map] at hmem
    rcases hmem with ⟨art, hart, rfl⟩
    exact ⟨p, hp, rfl, hart⟩
  · intro l1 a l2 hsplit hundated b hb
    have hkey0 : sortKey a.published = 0 := by
      rcases hp : a.published with t | _ | s
      · exact absurd hp (hundated t)
      · rfl
      · rfl
    rcases List.mem_cons.mp hb with h | h
    · rw [h, hkey0]
    · rw [hsplit] at hsorted
      have h2 := (List.pairwise_append.mp hsorted).2.1
      rw [List.pairwise_cons] at h2
      have := h2.1 b h
      omega

/-- C4 witness: the split hypothesis discharged on a concrete two-article
report (one dated, one unknown): the article after the undated one has the
minimal sort key. -/
theorem C4_master_feed_witness :
    sortKey (SourcedArticle.mk "a".data "l".data PubField.unknown
      (some "F".data)).published = 0 :=
  ((C4_master_feed 0
    ⟨.iso 0, 720,
      [("F".data, ⟨"u".data, [⟨"a".data, "l".data, .unknown⟩], 1⟩)], [],
      ⟨1, 1, 0, 1⟩⟩).2.2.2.2
    [] ⟨"a".data, "l".data, .unknown, some "F".data⟩ [] (by decide)
    (fun t h => by simp at h)
    ⟨"a".data, "l".data, .unknown, some "F".data⟩ (by decide))

/-! ## Markdown summary (`generate_summary.py::generate_markdown_summary`,
identical copy in `actions/collect-rss-feeds/generate_markdown_summary.py`)

The function builds a list of line strings and joins them with newlines. -/

/-- Title truncation at 80 characters with an ellipsis suffix. -/
def truncTitle (t : List Char) : List Char :=
  if 80 < t.length then t.take 80 ++ "...".data else t

/-- One article row of the per-feed table. -/
def mdRow (a : Article) : List Char :=
  "| [".data ++ truncTitle a.title ++ "](".data ++ a.link ++ ") | ".data ++
    a.published.raw ++ " |".data

/-- The `"...and N more articles"` notice emitted after a capped table. -/
def moreLine (count : Nat) : List Char :=
  "\n*...and ".data ++ natToChars (count - 10) ++ " more articles*".data

/-- The per-feed block of the `for feed_name, feed_data in data["feeds"]`
loop (lines 59-82): heading, count, a table of the first 10 articles with the
overflow notice when `count > 10`, or a no-articles notice, then a blank
line. -/
def feedSection (name : List Char) (fd : FeedResult) : List (List Char) :=
  ["### ".data ++ name, "- **Articles:** ".data ++ natToChars fd.count] ++
  (if fd.articles = [] then ["*No new articles*".data]
   else
     ["\n| Title | Published |".data, "|-------|-----------|".data] ++
     (fd.articles.take 10).map mdRow ++
     (if 10 < fd.count then [moreLine fd.count] else [])) ++
  [[]]

/-- One row of the failed-feeds table. -/
def mdFailedRow (f : FailedFeed) : List Char :=
  "| ".data ++ f.name ++ " | ".data ++ f.url ++ " | ".data ++ f.error ++ " |".data

/-- The header/summary lines of the Markdown output (lines 38-54). -/
def mdPreamble (r : Report) : List (List Char) :=
  ["# 📰 DevOps Feed Hub Summary\n".data,
   "**Collected at:** ".data ++ r.collected_at.raw ++ "\n".data,
   "**Time range:** Last ".data ++ natToChars r.hours ++ " hours\n".data,
   "**Note:** Web interface provides filtering for 1 day, 7 days, or 30 days\n".data,
   [],
   "## 📊 Summary\n".data,
   "- **Total feeds:** ".data ++ natToChars r.summary.total_feeds,
   "- **Successful:** ".data ++ natToChars r.summary.successful_feeds,
   "- **Failed:** ".data ++ natToChars r.summary.failed_feeds,
   "- **Total articles:** ".data ++ natToChars r.summary.total_articles,
   []]

/-- The failed-feeds block (lines 85-92). -/
def mdFailedPart (r : Report) : List (List Char) :=
  if r.failed_feeds = [] then []
  else
    ["## ❌ Failed Feeds\n".data,
     "| Feed Name | URL | Error |".data,
     "|-----------|-----|-------|".data] ++
    r.failed_feeds.map mdFailedRow ++ [[]]

/-- All lines of the Markdown summary, in emission order. -/
def mdLines (r : Report) : List (List Char) :=
  mdPreamble r ++
  (if r.feeds = [] then []
   else "## ✅ Successful Feeds\n".data ::
     r.feeds.bind (fun p => feedSection p.1 p.2)) ++
  mdFailedPart r

/-- Python `"\n".join(lines)`. -/
def joinLines : List (List Char) → List Char
  | [] => []
  | [l] => l
  | l :: rest => l ++ '\n' :: joinLines rest

/-- `generate_markdown_summary`. -/
def generate_markdown_summary (r : Report) : List Char := joinLines (mdLines r)

/-- Two lists differing within their first two elements differ. -/
theorem ne_of_take2 {l1 l2 : List Char} (h : ¬ l1.take 2 = l2.take 2) :
    ¬ l1 = l2 := fun he => h (by rw [he])

/-- The first two characters of the overflow notice. -/
theorem take2_moreLine (c : Nat) : (moreLine c).take 2 = ['\n', '*'] := rfl

/-- No line of a per-feed block other than the overflow notice equals the
overflow notice: headings, count lines, table headers, article rows, the
no-articles notice and blank lines all differ from it within their first two
characters. -/
theorem moreLine_ne_others (name : List Char) (fd : FeedResult) (c : Nat) :
    ¬ "### ".data ++ name = moreLine c ∧
    ¬ "- **Articles:** ".data ++ natToChars fd.count = moreLine c ∧
    ¬ "\n| Title | Published |".data = moreLine c ∧
    ¬ "|-------|-----------|".data = moreLine c ∧
    (∀ a : Article, ¬ mdRow a = moreLine c) ∧
    ¬ "*No new articles*".data = moreLine c ∧
    ¬ ([] : List Char) = moreLine c := by
  have step : ∀ l : List Char, l.take 2 ≠ ['\n', '*'] → ¬ l = moreLine c := by
    intro l hl he
    rw [← take2_moreLine c, ← he] at hl
    exact hl rfl
  refine ⟨step _ ?_, step _ ?_, step _ ?_, step _ ?_,
    (fun a => step _ ?_), step _ ?_, step _ ?_⟩
  · show ('#' :: '#' :: List.take 0 _) ≠ _
    intro h
    exact absurd (List.cons.injEq .. ▸ h) (by simp)
  · show ('-' :: ' ' :: List.take 0 _) ≠ _
    intro h
    exact absurd (List.cons.injEq .. ▸ h) (by simp)
  · intro h
    exact absurd (List.cons.injEq .. ▸ h) (by simp)
  · intro h
    exact absurd (List.cons.injEq .. ▸ h) (by simp)
  · show ('|' :: ' ' :: List.take 0 _) ≠ _
    intro h
    exact absurd (List.cons.injEq .. ▸ h) (by simp)
  · intro h
    exact absurd (List.cons.injEq .. ▸ h) (by simp)
  · decide

/-- C7 — Markdown table cap: under the data-model invariant
`count = length(articles)` (§3 of the spec), a per-feed block renders at most
10 article rows; the `"...and {count-10} more articles"` notice occurs in the
block exactly once when `count > 10` and never otherwise; and when it occurs
it stands immediately after the table's rows (only the final blank line
follows it). -/
theorem C7_markdown_cap (name : List Char) (fd : FeedResult)
    (hinv : fd.count = fd.articles.length) :
    ((fd.articles.take 10).map mdRow).length ≤ 10 ∧
    List.count (moreLine fd.count) (feedSection name fd) =
      (if 10 < fd.count then 1 else 0) ∧
    (10 < fd.count →
      feedSection name fd =
        ["### ".data ++ name, "- **Articles:** ".data ++ natToChars fd.count,
         "\n| Title | Published |".data, "|-------|-----------|".data] ++
        (fd.articles.take 10).map mdRow ++ [moreLine fd.count, []]) := by
  obtain ⟨h1, h2, h3, h4, h5, h6, h7⟩ := moreLine_ne_others name fd fd.count
  have hrowzero : List.count (moreLine fd.count)
      ((fd.articles.take 10).map mdRow) = 0 := by
    rw [List.count_eq_zero]
    intro habs
    rw [List.mem_map] at habs
    rcases habs with ⟨a, _, ha⟩
    exact h5 a ha
  refine ⟨?_, ?_, ?_⟩
  · rw [List.length_map]
    exact List.length_take_le 10 fd.articles
  · unfold feedSection
    by_cases hart : fd.articles = []
    · have hc0 : fd.count = 0 := by rw [hinv, hart]; rfl
      have hng : ¬ 10 < fd.count := by omega
      rw [if_pos hart, if_neg hng, List.count_eq_zero]
      intro habs
      simp only [List.append_assoc, List.cons_append, List.nil_append,
        List.mem_cons, List.not_mem_nil, or_false] at habs
      rcases habs with h | h | h | h
      · exact h1 h.symm
      · exact h2 h.symm
      · exact h6 h.symm
      · exact h7 h.symm
    · rw [if_neg hart]
      by_cases hgt : 10 < fd.count
      · rw [if_pos hgt, if_pos hgt]
        simp only [List.append_assoc]
        rw [List.count_append, List.count_append, List.count_append,
          List.count_append,
          List.count_cons_of_ne (fun he => h1 he.symm),
          List.count_cons_of_ne (fun he => h2 he.symm),
          List.count_cons_of_ne (fun he => h3 he.symm),
          List.count_cons_of_ne (fun he => h4 he.symm),
          hrowzero,
          List.count_cons_self,
          List.count_cons_of_ne (fun he => h7 he.symm)]
        simp
      · rw [if_neg hgt, if_neg hgt]
        simp only [List.append_assoc, List.append_nil]
        rw [List.count_append, List.count_append, List.count_append,
          List.count_cons_of_ne (fun he => h1 he.symm),
          List.count_cons_of_ne (fun he => h2 he.symm),
          List.count_cons_of_ne (fun he => h3 he.symm),
          List.count_cons_of_ne (fun he => h4 he.symm),
          hrowzero,
          List.count_cons_of_ne (fun he => h7 he.symm)]
        simp
  · intro hgt
    have hart : ¬ fd.articles = [] := by
      intro habs
      rw [hinv, habs] at hgt
      simp at hgt
    unfold feedSection
    rw [if_neg hart, if_pos hgt]
    simp

/-- Eleven concrete undated articles, for evaluating the table cap. -/
def elevenArticles : List Article :=
  (List.range 11).map (fun i => ⟨'t' :: natToChars i, 'l' :: natToChars i, .unknown⟩)

/-- C7 witness: an 11-article feed shows 10 rows and exactly one overflow
notice. -/
theorem C7_markdown_cap_witness :
    ((elevenArticles.take 10).map mdRow).length ≤ 10 ∧
    List.count (moreLine 11)
      (feedSection "F".data ⟨"u".data, elevenArticles, 11⟩) = 1 := by
  have h := C7_markdown_cap "F".data ⟨"u".data, elevenArticles, 11⟩ (by decide)
  refine ⟨h.1, ?_⟩
  have := h.2.1
  simpa using this

/-! ## HTML escaping (`html.escape` and the HTML fragment generators of
`generate_summary.py`) -/

/-- Python `html.escape(s)` (default `quote=True`): the per-character
expansion of the five sequential `str.replace` passes (`&` is replaced
first, so the passes act independently per character). -/
def escChar (c : Char) : List Char :=
  if c = '&' then "&amp;".data
  else if c = '<' then "&lt;".data
  else if c = '>' then "&gt;".data
  else if c = '"' then "&quot;".data
  else if c = '\'' then "&#x27;".data
  else [c]

/-- Python `html.escape`. -/
def htmlEscape (l : List Char) : List Char := l.bind escChar

/-- Escaped text never contains a literal `<`. -/
theorem htmlEscape_noLT (l : List Char) : '<' ∉ htmlEscape l := by
  intro h
  unfold htmlEscape at h
  rw [List.mem_bind] at h
  rcases h with ⟨c, _, hc⟩
  unfold escChar at hc
  repeat' split at hc
  all_goals first
    | (revert hc; decide)
    | (simp only [List.mem_singleton] at hc; subst hc; simp_all)

/-- Does `pat` occur at the head of the list? -/
def begins : List Char → List Char → Bool
  | [], _ => true
  | _ :: _, [] => false
  | p :: ps, c :: cs => p = c && begins ps cs

/-- Does `pat` occur anywhere in the list (Python `pat in s`)? -/
def hasSub (pat : List Char) : List Char → Bool
  | [] => pat.isEmpty
  | c :: rest => begins pat (c :: rest) || hasSub pat rest

/-- Scanner for the three-character window `<sc` — the prefix every
`<script>` tag starts with. -/
def hasSC : List Char → Bool
  | [] => false
  | [_] => false
  | [_, _] => false
  | a :: b :: c :: rest => (a = '<' && b = 's' && c = 'c') || hasSC (b :: c :: rest)

/-- Does the list end in `<` or in `<s` (the dangerous suffixes when
concatenating fragments)? -/
def endsBad : List Char → Bool
  | [] => false
  | [c] => c = '<'
  | [c, d] => (c = '<' && d = 's') || d = '<'
  | _ :: rest => endsBad rest

/-- A fragment that is safe to splice into a page: it neither contains the
window `<sc` nor ends in a prefix of it. -/
def pieceSafe (l : List Char) : Prop := hasSC l = false ∧ endsBad l = false

/-- Dropping the first character preserves a clean ending. -/
theorem endsBad_cons {c : Char} {l : List Char} (h : endsBad (c :: l) = false) :
    endsBad l = false := by
  match l with
  | [] => rfl
  | [x] =>
    unfold endsBad at h ⊢
    simp only [Bool.or_eq_false_iff] at h
    simpa using h.2
  | x :: y :: rest =>
    unfold endsBad at h
    exact h

/-- Clean endings are preserved by concatenation of clean pieces. -/
theorem endsBad_append {a b : List Char} (ha : endsBad a = false)
    (hb : endsBad b = false) : endsBad (a ++ b) = false := by
  induction a with
  | nil => simpa using hb
  | cons c a ih =>
    have hrec := ih (endsBad_cons ha)
    rw [List.cons_append]
    rcases hab : a ++ b with _ | ⟨x, _ | ⟨y, rest⟩⟩
    · have h0 := List.append_eq_nil.mp hab
      rw [h0.1] at ha
      exact ha
    · rcases a with _ | ⟨z, a'⟩
      · have hb' : b = [x] := by simpa using hab
        rw [hb'] at hb
        unfold endsBad at ha hb ⊢
        simp only [decide_eq_false_iff_not] at ha hb
        simp [ha, hb]
      · have hz : z = x ∧ a' ++ b = [] := by simpa using hab
        have ha0 : a' = [] := (List.append_eq_nil.mp hz.2).1
        rw [← hz.1]
        rw [ha0] at ha
        exact ha
    · rw [hab] at hrec
      show endsBad (c :: x :: y :: rest) = false
      unfold endsBad
      exact hrec

/-- Dropping the first character preserves freedom from the window. -/
theorem hasSC_cons {c : Char} {l : List Char} (h : hasSC (c :: l) = false) :
    hasSC l = false := by
  match l with
  | [] => rfl
  | [x] => rfl
  | x :: y :: rest =>
    unfold hasSC at h
    exact (Bool.or_eq_false_iff.mp h).2

/-- Window freedom is preserved by concatenating window-free pieces with
clean endings. -/
theorem hasSC_append {a b : List Char} (hb : hasSC b = false)
    (ha : hasSC a = false) (hea : endsBad a = false) :
    hasSC (a ++ b) = false := by
  induction a with
  | nil => simpa using hb
  | cons c a ih =>
    have hrec : hasSC (a ++ b) = false := ih (hasSC_cons ha) (endsBad_cons hea)
    rw [List.cons_append]
    rcases hab : a ++ b with _ | ⟨x, _ | ⟨y, rest⟩⟩
    · rfl
    · rfl
    · unfold hasSC
      rw [Bool.or_eq_false_iff]
      refine ⟨?_, by rw [← hab]; exact hrec⟩
      rcases a with _ | ⟨z, _ | ⟨w, a'⟩⟩
      · have hbx : b = x :: y :: rest := by simpa using hab
        unfold endsBad at hea
        simp only [decide_eq_false_iff_not] at hea
        simp [hea]
      · have hzx : z = x ∧ b = y :: rest := by simpa using hab
        unfold endsBad at hea
        simp only [Bool.or_eq_false_iff, Bool.and_eq_false_iff,
          decide_eq_false_iff_not] at hea
        rw [← hzx.1]
        rcases hea.1 with h | h <;> simp [h]
      · have hzw : z = x ∧ w = y ∧ a' ++ b = rest := by simpa using hab
        unfold hasSC at ha
        have := (Bool.or_eq_false_iff.mp ha).1
        rw [← hzw.1, ← hzw.2.1]
        exact this

/-- Safety composes over concatenation. -/
theorem pieceSafe_append {a b : List Char} (ha : pieceSafe a)
    (hb : pieceSafe b) : pieceSafe (a ++ b) :=
  ⟨hasSC_append hb.1 ha.1 ha.2, endsBad_append ha.2 hb.2⟩

/-- A `<`-free fragment is safe. -/
theorem pieceSafe_of_noLT {l : List Char} (h : '<' ∉ l) : pieceSafe l := by
  constructor
  · induction l with
    | nil => rfl
    | cons c rest ih =>
      have hc : ¬ c = '<' := fun he => h (he ▸ List.mem_cons_self c rest)
      have hr : hasSC rest = false := by
        rcases rest with _ | ⟨x, _ | ⟨y, r⟩⟩
        · rfl
        · rfl
        · exact ih (fun hm => h (List.mem_cons_of_mem c hm))
      rcases rest with _ | ⟨x, _ | ⟨y, r⟩⟩
      · rfl
      · rfl
      · unfold hasSC
        simp [hc, hr]
  · induction l with
    | nil => rfl
    | cons c rest ih =>
      have hc : ¬ c = '<' := fun he => h (he ▸ List.mem_cons_self c rest)
      have hr : endsBad rest = false := ih (fun hm => h (List.mem_cons_of_mem c hm))
      rcases rest with _ | ⟨x, _ | ⟨y, r⟩⟩
      · simp [endsBad, hc]
      · have hx : ¬ x = '<' := fun he => h (by rw [he]; simp)
        unfold endsBad
        simp [hc, hx]
      · unfold endsBad
        exact hr

/-- Escaped fragments are safe. -/
theorem pieceSafe_htmlEscape (l : List Char) : pieceSafe (htmlEscape l) :=
  pieceSafe_of_noLT (htmlEscape_noLT l)

/-- Decimal renderings are safe. -/
theorem pieceSafe_nat (n : Nat) : pieceSafe (natToChars n) := by
  refine pieceSafe_of_noLT ?_
  intro h
  have := natToChars_digits n '<' h
  exact absurd this (by decide)

/-- Slugs are safe (their characters are alphanumerics and hyphens). -/
theorem pieceSafe_slug (l : List Char) : pieceSafe (slugChars l) := by
  refine pieceSafe_of_noLT ?_
  intro h
  unfold slugChars at h
  have h1 := stripDashes_subset _ '<' h
  have h2 := collapseDashes_subset _ '<' h1
  rw [List.mem_filter] at h2
  exact absurd h2.2 (by decide)

/-- A fold of safe fragments is safe. -/
theorem pieceSafe_bind {α : Type} (f : α → List Char) (l : List α)
    (h : ∀ x ∈ l, pieceSafe (f x)) : pieceSafe (l.bind f) := by
  induction l with
  | nil => exact ⟨rfl, rfl⟩
  | cons x rest ih =>
    rw [show (x :: rest).bind f = f x ++ rest.bind f from rfl]
    exact pieceSafe_append (h x (List.mem_cons_self x rest))
      (ih (fun y hy => h y (List.mem_cons_of_mem x hy)))

/-- A fragment whose head matches `<sc` realizes the window. -/
theorem hasSC_of_begins {p l : List Char}
    (h : begins ('<' :: 's' :: 'c' :: p) l = true) : hasSC l = true := by
  match l with
  | [] => simp [begins] at h
  | [x] =>
    unfold begins at h
    rw [Bool.and_eq_true] at h
    exact absurd h.2 (by simp [begins])
  | [x, y] =>
    unfold begins at h
    rw [Bool.and_eq_true] at h
    have h2 := h.2
    unfold begins at h2
    rw [Bool.and_eq_true] at h2
    exact absurd h2.2 (by simp [begins])
  | x :: y :: z :: rest =>
    unfold begins at h
    simp only [Bool.and_eq_true, decide_eq_true_eq] at h
    obtain ⟨hx, h⟩ := h
    unfold begins at h
    simp only [Bool.and_eq_true, decide_eq_true_eq] at h
    obtain ⟨hy, h⟩ := h
    unfold begins at h
    simp only [Bool.and_eq_true, decide_eq_true_eq] at h
    obtain ⟨hz, _⟩ := h
    unfold hasSC
    simp [← hx, ← hy, ← hz]

/-- A window-free fragment contains no `<script>` occurrence. -/
theorem no_script_of_no_window {l : List Char} (h : hasSC l = false) :
    hasSub "<script>".data l = false := by
  induction l with
  | nil => rfl
  | cons c rest ih =>
    unfold hasSub
    rw [Bool.or_eq_false_iff]
    constructor
    · rw [Bool.eq_false_iff]
      intro hb
      have : hasSC (c :: rest) = true := hasSC_of_begins hb
      rw [h] at this
      exact absurd this (by simp)
    · exact ih (hasSC_cons h)

/-! ## HTML fragment generators (`generate_summary.py`) -/

/-- Ascending lexicographic order on strings by code point (Python `<` on
`str`, as used by `sorted`). -/
def lexLt : List Char → List Char → Bool
  | [], [] => false
  | [], _ :: _ => true
  | _ :: _, [] => false
  | a :: as, b :: bs => if a = b then lexLt as bs else decide (a < b)

/-- Insertion into a sorted list (stable: a new element goes after existing
smaller-or-equal elements). -/
def insertStr (x : List Char) : List (List Char) → List (List Char)
  | [] => [x]
  | y :: rest => if lexLt y x then y :: insertStr x rest else x :: y :: rest

/-- Python `sorted(...)` on a list of strings. -/
def sortStrings : List (List Char) → List (List Char)
  | [] => []
  | x :: xs => insertStr x (sortStrings xs)

/-- Insertion adds no new elements. -/
theorem insertStr_mem {x y : List Char} :
    ∀ l : List (List Char), y ∈ insertStr x l → y = x ∨ y ∈ l := by
  intro l
  induction l with
  | nil => intro h; simpa [insertStr] using h
  | cons z rest ih =>
    intro h
    unfold insertStr at h
    split at h
    · rcases List.mem_cons.mp h with h | h
      · right; rw [h]; exact List.mem_cons_self z rest
      · rcases ih h with h | h
        · exact Or.inl h
        · exact Or.inr (List.mem_cons_of_mem z h)
    · rcases List.mem_cons.mp h with h | h
      · exact Or.inl h
      · exact Or.inr h

/-- Sorting adds no new elements. -/
theorem sortStrings_mem {y : List Char} :
    ∀ l : List (List Char), y ∈ sortStrings l → y ∈ l := by
  intro l
  induction l with
  | nil => intro h; simpa [sortStrings] using h
  | cons x xs ih =>
    intro h
    unfold sortStrings at h
    rcases insertStr_mem _ h with h | h
    · rw [h]; exact List.mem_cons_self x xs
    · exact List.mem_cons_of_mem x (ih h)

/-- One `for feed_name in sorted(feeds.keys())` iteration of
`generate_feed_nav` (lines 118-124). -/
def navEntry (current_feed : Option (List Char)) (feed_name : List Char) : List Char :=
  "  <a href=\"feed-".data ++ slugChars feed_name ++ ".html\" class=\"nav-link".data ++
  (if current_feed = some feed_name then " active".data else []) ++
  "\">".data ++ htmlEscape feed_name ++ "</a>\n".data

/-- `generate_feed_nav`. -/
def generate_feed_nav (feeds : List (List Char × FeedResult))
    (current_feed : Option (List Char)) : List Char :=
  "<nav class=\"feed-nav\">\n".data ++
  "  <a href=\"index.html\" class=\"nav-link".data ++
  (if current_feed = none then " active".data else []) ++
  "\">All Feeds</a>\n".data ++
  (sortStrings (feeds.map Prod.fst)).bind (navEntry current_feed) ++
  "  <a href=\"summary.html\" class=\"nav-link".data ++
  (if current_feed = some "summary".data then " active".data else []) ++
  "\">Summary</a>\n".data ++
  "</nav>\n".data

/-- One failed feed of `generate_failed_feeds_content` (lines 152-164). -/
def failedItem (f : FailedFeed) : List Char :=
  "\n            <div class=\"failed-feed-item\">\n                <div class=\"failed-feed-name\">".data ++
  htmlEscape f.name ++
  "</div>\n                <div class=\"failed-feed-url\">".data ++
  htmlEscape f.url ++
  "</div>\n                <div class=\"failed-feed-error\">Error: ".data ++
  htmlEscape f.error ++
  "</div>\n            </div>\n".data

/-- `generate_failed_feeds_content`. -/
def generate_failed_feeds_content (failed_feeds : List FailedFeed) : List Char :=
  "\n        <h2>Failed Feeds</h2>\n".data ++
  (if failed_feeds = [] then
    "\n        <div class=\"no-articles\">No failed feeds</div>\n".data
  else
    "\n        <div class=\"failed-feeds\">\n".data ++
    failed_feeds.bind failedItem ++
    "\n        </div>\n".data)

/-- `format_publish_date`: a parseable ISO timestamp is reformatted for
humans (`strftime("%b %d, %Y at %I:%M %p")`, abstracted by the instant's
decimal rendering), anything else is returned unchanged. -/
def format_publish_date (p : PubField) : List Char :=
  match p with
  | .iso t => natToChars t
  | .unknown => "Unknown".data
  | .malformed s => s

/-- One article of `generate_feed_articles_content` (lines 223-236). -/
def articleItem (a : Article) : List Char :=
  "\n                <li class=\"article-item\" data-published=\"".data ++
  htmlEscape a.published.raw ++
  "\">\n                    <a href=\"".data ++
  htmlEscape a.link ++
  "\" class=\"article-title\"\n                       target=\"_blank\" rel=\"noopener noreferrer\">\n                        ".data ++
  htmlEscape a.title ++
  "\n                    </a>\n                    <div class=\"article-meta\">".data ++
  htmlEscape (format_publish_date a.published) ++
  "</div>\n                </li>\n".data

/-- One feed section of `generate_feed_articles_content` (lines 207-246). -/
def feedArticlesSection (feed_name : List Char) (feed_data : FeedResult) : List Char :=
  "\n        <div class=\"feed-section\">\n            <h3>".data ++
  htmlEscape feed_name ++
  "\n                <span class=\"feed-count\">\n                    ".data ++
  natToChars feed_data.count ++
  " article".data ++
  (if feed_data.count = 1 then [] else "s".data) ++
  "\n                </span>\n            </h3>\n".data ++
  (if feed_data.articles = [] then
    "\n            <div class=\"no-articles\">No new articles in this time period</div>\n".data
  else
    "\n            <ul class=\"article-list\">\n".data ++
    feed_data.articles.bind articleItem ++
    "\n            </ul>\n".data) ++
  "\n        </div>\n".data

/-- `generate_feed_articles_content` (the empty-mapping early return yields
the empty string, which the general fold already produces). -/
def generate_feed_articles_content
    (feeds_to_display : List (List Char × FeedResult)) : List Char :=
  feeds_to_display.bind (fun p => feedArticlesSection p.1 p.2)

instance pieceSafeDecidable (l : List Char) : Decidable (pieceSafe l) := by
  unfold pieceSafe
  infer_instance

/-- Every navigation entry is a safe fragment. -/
theorem navEntry_safe (current_feed : Option (List Char)) (feed_name : List Char) :
    pieceSafe (navEntry current_feed feed_name) := by
  unfold navEntry
  repeat' apply pieceSafe_append
  all_goals first
    | decide
    | exact pieceSafe_slug _
    | exact pieceSafe_htmlEscape _
    | (split <;> decide)

/-- The navigation block is a safe fragment. -/
theorem generate_feed_nav_safe (feeds : List (List Char × FeedResult))
    (current_feed : Option (List Char)) :
    pieceSafe (generate_feed_nav feeds current_feed) := by
  unfold generate_feed_nav
  repeat' apply pieceSafe_append
  all_goals first
    | decide
    | exact pieceSafe_bind _ _ (fun x _ => navEntry_safe current_feed x)
    | (split <;> decide)

/-- The failed-feeds block is a safe fragment. -/
theorem generate_failed_feeds_content_safe (failed_feeds : List FailedFeed) :
    pieceSafe (generate_failed_feeds_content failed_feeds) := by
  have hitem : ∀ f : FailedFeed, pieceSafe (failedItem f) := by
    intro f
    unfold failedItem
    repeat' apply pieceSafe_append
    all_goals first
      | decide
      | exact pieceSafe_htmlEscape _
  unfold generate_failed_feeds_content
  apply pieceSafe_append (by decide)
  split
  · decide
  · repeat' apply pieceSafe_append
    all_goals first
      | decide
      | exact pieceSafe_bind _ _ (fun f _ => hitem f)

/-- The per-feed article listing is a safe fragment. -/
theorem generate_feed_articles_content_safe
    (feeds_to_display : List (List Char × FeedResult)) :
    pieceSafe (generate_feed_articles_content feeds_to_display) := by
  have hart : ∀ a : Article, pieceSafe (articleItem a) := by
    intro a
    unfold articleItem
    repeat' apply pieceSafe_append
    all_goals first
      | decide
      | exact pieceSafe_htmlEscape _
  unfold generate_feed_articles_content
  refine pieceSafe_bind _ _ (fun p _ => ?_)
  unfold feedArticlesSection
  apply pieceSafe_append
  · apply pieceSafe_append
    · repeat' apply pieceSafe_append
      all_goals first
        | decide
        | exact pieceSafe_htmlEscape _
        | exact pieceSafe_nat _
        | (split <;> decide)
    · split
      · decide
      · repeat' apply pieceSafe_append
        all_goals first
          | decide
          | exact pieceSafe_bind _ _ (fun a _ => hart a)
  · decide

/-- C6 — HTML escaping: every user-supplied string (feed names, article
titles, links and dates, failure names/URLs/reasons) passes through
`html.escape` before being spliced into a fragment, so no generated fragment
ever contains the tag `<script>`; in particular the feed name
`Test Blog <script>` is rendered escaped as `Test Blog &lt;script&gt;` in the
navigation block, which contains no `<script>`. -/
theorem C6_html_escaping :
    (∀ (feeds : List (List Char × FeedResult)) (cur : Option (List Char)),
      hasSub "<script>".data (generate_feed_nav feeds cur) = false) ∧
    (∀ failed_feeds : List FailedFeed,
      hasSub "<script>".data (generate_failed_feeds_content failed_feeds) = false) ∧
    (∀ feeds : List (List Char × FeedResult),
      hasSub "<script>".data (generate_feed_articles_content feeds) = false) ∧
    htmlEscape "Test Blog <script>".data = "Test Blog &lt;script&gt;".data ∧
    hasSub "Test Blog &lt;script&gt;".data
      (generate_feed_nav [("Test Blog <script>".data, ⟨"u".data, [], 0⟩)] none) = true ∧
    hasSub "<script>".data
      (generate_feed_nav [("Test Blog <script>".data, ⟨"u".data, [], 0⟩)] none) = false := by
  refine ⟨?_, ?_, ?_, by decide, by decide, by decide⟩
  · intro feeds cur
    exact no_script_of_no_window (generate_feed_nav_safe feeds cur).1
  · intro failed_feeds
    exact no_script_of_no_window (generate_failed_feeds_content_safe failed_feeds).1
  · intro feeds
    exact no_script_of_no_window (generate_feed_articles_content_safe feeds).1

/-! ## Full HTML pages (`generate_summary.py::generate_html_content`,
`generate_html_page`, `generate_all_pages`) -/

/-- First-match lookup in a JSON-object association list (`d[k]`; keys of a
Python dict are unique, so first match is the binding). -/
def dictGet {α : Type} (m : List (List Char × α)) (k : List Char) : Option α :=
  match m with
  | [] => none
  | (k', v) :: rest => if k' = k then some v else dictGet rest k

/-- Insertion by name into a name-sorted pair list. -/
def insertPair (x : List Char × FeedResult) :
    List (List Char × FeedResult) → List (List Char × FeedResult)
  | [] => [x]
  | y :: rest => if lexLt y.1 x.1 then y :: insertPair x rest else x :: y :: rest

/-- Python `dict(sorted(d.items()))`: sort the pairs by name (keys are
unique, so the tuple comparison never reaches the values). -/
def sortPairs : List (List Char × FeedResult) → List (List Char × FeedResult)
  | [] => []
  | x :: xs => insertPair x (sortPairs xs)

/-- The all-feeds display order (lines 426-439): feeds with articles first,
then empty feeds, each group alphabetical. -/
def feedsWithArticlesFirst (feeds : List (List Char × FeedResult)) :
    List (List Char × FeedResult) :=
  sortPairs (feeds.filter (fun p => 0 < p.2.count)) ++
  sortPairs (feeds.filter (fun p => ¬ 0 < p.2.count))

/-- The text of `f"{percentage:.1f}"` (lines 384-398), abstracted by a
deterministic rendering of the pair `(count, total)` (the float text is a
pure function of the two integers; no claim depends on its exact digits). -/
def pctRender (count total : Nat) : List Char :=
  if total = 0 then "0.0".data
  else natToChars (count * 1000 / total)

/-- One item of the summary page's feed-breakdown list (lines 389-401). -/
def feedBreakdownItem (total_articles : Nat) (p : List Char × FeedResult) : List Char :=
  "
            <div class=\"feed-breakdown-item\">
                <div class=\"feed-breakdown-header\">
                    <a href=\"feed-".data ++ slugChars p.1 ++ ".html\" class=\"feed-breakdown-name\">
                        ".data ++ htmlEscape p.1 ++ "
                    </a>
                    <div class=\"feed-breakdown-count\">".data ++ natToChars p.2.count ++ " articles</div>
                </div>
                <div class=\"feed-breakdown-bar\">
                    <div class=\"feed-breakdown-fill\" style=\"width: ".data ++
  pctRender p.2.count total_articles ++ "%\"></div>
                </div>
            </div>
".data

/-- The summary page's feed-breakdown block (lines 369-404): feeds sorted by
article count, descending. -/
def feedBreakdown (r : Report) : List Char :=
  "
        <h2>Feed Breakdown</h2>
        <div class=\"feed-breakdown\">
".data ++
  (sortDesc (fun p => p.2.count) r.feeds).bind
    (feedBreakdownItem r.summary.total_articles) ++
  "
        </div>
".data

/-- The summary page content (lines 267-406): the four stat cards (their SVG
markup transcribed verbatim), the failed-feeds section when feeds failed, and
the feed breakdown when feeds exist. -/
def summaryContent (r : Report) : List Char :=
  "
        <h2>Feed Collection Summary</h2>
        <div class=\"summary-intro\">
            Overview of RSS feed collection status and statistics.
        </div>
        <div class=\"stats\">
            <div class=\"stat-card\">
                <div class=\"stat-icon\">
                    <svg
                        width=\"32\"
                        height=\"32\"
                        viewBox=\"0 0 24 24\"
                        fill=\"none\"
                        stroke=\"currentColor\"
                        stroke-width=\"2\"
                        stroke-linecap=\"round\"
                        stroke-linejoin=\"round\"
                    >
                        <path d=\"M4 11a9 9 0 0 1 9 9\"></path>
                        <path d=\"M4 4a16 16 0 0 1 16 16\"></path>
                        <circle cx=\"5\" cy=\"19\" r=\"1\"></circle>
                    </svg>
                </div>
                <div class=\"stat-label\">Total Feeds</div>
                <div class=\"stat-value\">".data ++
  natToChars r.summary.total_feeds ++ "</div>
            </div>
            <div class=\"stat-card success\">
                <div class=\"stat-icon\">
                    <svg
                        width=\"32\"
                        height=\"32\"
                        viewBox=\"0 0 24 24\"
                        fill=\"none\"
                        stroke=\"currentColor\"
                        stroke-width=\"2\"
                        stroke-linecap=\"round\"
                        stroke-linejoin=\"round\"
                    >
                        <path d=\"M12 22s8-4 8-10V5l-8-3-8 3v7c0 6 8 10 8 10z\"></path>
                        <polyline points=\"9 12 11 14 15 10\"></polyline>
                    </svg>
                </div>
                <div class=\"stat-label\">Successful</div>
                <div class=\"stat-value\">".data ++
  natToChars r.summary.successful_feeds ++ "</div>
            </div>
            <div class=\"stat-card error\">
                <div class=\"stat-icon\">
                    <svg
                        width=\"32\"
                        height=\"32\"
                        viewBox=\"0 0 24 24\"
                        fill=\"none\"
                        stroke=\"currentColor\"
                        stroke-width=\"2\"
                        stroke-linecap=\"round\"
                        stroke-linejoin=\"round\"
                    >
                        <path
                            d=\"M10.29 3.86L1.82 18a2 2 0 0 0 1.71 3h16.94a2 2 0 0 0 1.71-3L13.71 3.86a2 2 0 0 0-3.42 0z\"
                        ></path>
                        <line x1=\"12\" y1=\"9\" x2=\"12\" y2=\"13\"></line>
                        <line x1=\"12\" y1=\"17\" x2=\"12.01\" y2=\"17\"></line>
                    </svg>
                </div>
                <div class=\"stat-label\">Failed</div>
                <div class=\"stat-value\">".data ++
  natToChars r.summary.failed_feeds ++ "</div>
            </div>
            <div class=\"stat-card\">
                <div class=\"stat-icon\">
                    <svg
                        width=\"32\"
                        height=\"32\"
                        viewBox=\"0 0 24 24\"
                        fill=\"none\"
                        stroke=\"currentColor\"
                        stroke-width=\"2\"
                        stroke-linecap=\"round\"
                        stroke-linejoin=\"round\"
                    >
                        <polygon points=\"12 2 2 7 12 12 22 7 12 2\"></polygon>
                        <polyline points=\"2 17 12 22 22 17\"></polyline>
                        <polyline points=\"2 12 12 17 22 12\"></polyline>
                    </svg>
                </div>
                <div class=\"stat-label\">Total Articles</div>
                <div class=\"stat-value\">".data ++
  natToChars r.summary.total_articles ++ "</div>
            </div>
        </div>
".data ++
  (if r.failed_feeds = [] then []
   else generate_failed_feeds_content r.failed_feeds) ++
  (if r.feeds = [] then [] else feedBreakdown r)

/-- Python truthiness of the `current_feed` argument (`None` and the empty
string are falsy). -/
def truthyName : Option (List Char) → Bool
  | some s => ¬ s = []
  | none => false

/-- `generate_html_content`. -/
def generate_html_content (r : Report) (current_feed : Option (List Char)) :
    List Char :=
  if current_feed = some "summary".data then summaryContent r
  else if current_feed = some "failed".data then
    generate_failed_feeds_content r.failed_feeds
  else
    (if truthyName current_feed then
      "
        <h2>".data ++ htmlEscape (current_feed.getD []) ++ "</h2>
".data
     else []) ++
    generate_feed_articles_content
      (if truthyName current_feed then
        match dictGet r.feeds (current_feed.getD []) with
        | some fd => [(current_feed.getD [], fd)]
        | none => []
       else feedsWithArticlesFirst r.feeds)

/-- Python `s.replace(pat, rep)` for a nonempty `pat`, with a fuel bound of
the input length (each step consumes at least one character). -/
def replaceStrAux (pat rep : List Char) : Nat → List Char → List Char
  | 0, l => l
  | _ + 1, [] => []
  | fuel + 1, c :: rest =>
    if begins pat (c :: rest) then
      rep ++ replaceStrAux pat rep fuel ((c :: rest).drop pat.length)
    else c :: replaceStrAux pat rep fuel rest

/-- Python `s.replace(pat, rep)` (nonempty `pat`). -/
def replaceStr (pat rep l : List Char) : List Char :=
  replaceStrAux pat rep l.length l

/-- The text of `strftime("%B %d, %Y at %I:%M %p UTC")` on the collection
instant, abstracted by a deterministic rendering of the instant. -/
def timeRender (t : Nat) : List Char := natToChars t ++ " UTC".data

/-- The `page_title` chain of `generate_html_page` (lines 501-507). -/
def pageTitle (current_feed : Option (List Char)) : List Char :=
  if current_feed = some "summary".data then "Summary - DevOps Feed Hub".data
  else if current_feed = some "failed".data then "Failed Feeds - DevOps Feed Hub".data
  else if truthyName current_feed then
    current_feed.getD [] ++ " - DevOps Feed Hub".data
  else "DevOps Feed Hub".data

/-- The placeholder-substitution pipeline of `generate_html_page`
(lines 509-521), for a successfully parsed collection instant `t`. -/
def pageAssemble (template : List Char) (r : Report)
    (current_feed : Option (List Char)) (t : Nat) : List Char :=
  let content := generate_html_content r current_feed
  let sidebar_content := generate_feed_nav r.feeds current_feed
  let formatted_time := timeRender t
  let cache_version := natToChars t
  let h1 := replaceStr "<!-- CONTENT_PLACEHOLDER -->".data content template
  let h2 := replaceStr "<!-- SIDEBAR_PLACEHOLDER -->".data sidebar_content h1
  let h3 := replaceStr "<!-- TIMESTAMP_PLACEHOLDER -->".data formatted_time h2
  let h4 := replaceStr
    "href=\"styles.css?v=<!-- TIMESTAMP_PLACEHOLDER -->\"".data
    ("href=\"styles.css?v=".data ++ cache_version ++ "\"".data) h3
  replaceStr "<title>DevOps Feed Hub</title>".data
    ("<title>".data ++ htmlEscape (pageTitle current_feed) ++ "</title>".data) h4

/-- `generate_html_page`: `parse_iso_timestamp(collected_at)` raises on a
non-ISO string (`none`); otherwise the page is assembled from the template. -/
def generate_html_page (template : List Char) (r : Report)
    (current_feed : Option (List Char)) : Option (List Char) :=
  match r.collected_at with
  | .iso t => some (pageAssemble template r current_feed t)
  | .unknown => none
  | .malformed _ => none

/-- The `(path, contents)` write sequence of `generate_all_pages`: the index,
the summary page, then one page per feed in sorted name order, each at
`feed-<slug>.html`.  `none` when the collection timestamp cannot be parsed
(the first page generation raises and aborts the run). -/
def generate_all_pages_writes (template : List Char) (r : Report) :
    Option (List (List Char × List Char)) :=
  match r.collected_at with
  | .iso t => some
      (("index.html".data, pageAssemble template r none t) ::
       ("summary.html".data, pageAssemble template r (some "summary".data) t) ::
       (sortStrings (r.feeds.map Prod.fst)).map (fun name =>
         ("feed-".data ++ slugChars name ++ ".html".data,
          pageAssemble template r (some name) t)))
  | .unknown => none
  | .malformed _ => none

/-- The `(path, channel)` write sequence of `generate_all_feeds`: the master
feed at `feed.xml`, then one channel per feed in sorted name order at
`feed-<slug>.xml` (the mapping access `data["feeds"][feed_name]` always hits
because the names come from the mapping itself). -/
def generate_all_feeds_writes (now : Nat) (r : Report) :
    List (List Char × RssChannel) :=
  ("feed.xml".data, generate_master_feed now r) ::
  (sortStrings (r.feeds.map Prod.fst)).map (fun name =>
    ("feed-".data ++ slugChars name ++ ".xml".data,
     generate_individual_feed now name ((dictGet r.feeds name).getD ⟨[], [], 0⟩)
       r.collected_at))

/-- The final directory contents after replaying a write sequence against an
empty directory: a later write to the same path overwrites the earlier one
(`dictPut`). -/
def applyWrites {α : Type} (ws : List (List Char × α)) : List (List Char × α) :=
  ws.foldl (fun m kv => dictPut m kv.1 kv.2) []

/-- One complete rendering pass over a collection artifact: the Markdown
summary, the HTML page writes and the RSS feed writes, as functions of the
artifact, the HTML template and the wall clock `now` (which only
`format_rfc822_date`'s fallback reads). -/
def renderRun (now : Nat) (template : List Char) (r : Report) :
    List Char × Option (List (List Char × List Char)) ×
      List (List Char × RssChannel) :=
  (generate_markdown_summary r,
   generate_all_pages_writes template r,
   generate_all_feeds_writes now r)

/-! ## Rendering determinism (C5)

`format_rfc822_date` falls back to `datetime.now()` when its argument does
not parse; every other rendering step reads only the artifact.  A `published`
string that reaches that fallback must be truthy (non-empty) and different
from `"Unknown"`; `lastBuildDate` passes `collected_at` through it
unconditionally. -/

/-- A `published`/`collected_at` value whose rendering cannot reach the
wall-clock fallback inside an item: a parseable timestamp, the guarded
`"Unknown"` marker, or a falsy (empty) string. -/
def pubDeterministic : PubField → Bool
  | .iso _ => true
  | .unknown => true
  | .malformed s => s = []

/-- A collection artifact whose date strings render deterministically:
`collected_at` parses, and no article carries a non-empty unparseable date. -/
def wellFormedReport (r : Report) : Prop :=
  (∃ t, r.collected_at = .iso t) ∧
  ∀ p ∈ r.feeds, ∀ a ∈ p.2.articles, pubDeterministic a.published = true

/-- Item rendering ignores the wall clock on deterministic dates. -/
theorem articleToItem_const (n1 n2 : Nat) (a : SourcedArticle)
    (h : pubDeterministic a.published = true) :
    articleToItem n1 a = articleToItem n2 a := by
  rcases hp : a.published with t | _ | s
  · simp [articleToItem, hp, PubField.truthy, formatRfc822]
  · simp [articleToItem, hp, PubField.truthy, formatRfc822]
  · rw [hp] at h
    have hs : s = [] := by simpa [pubDeterministic] using h
    simp [articleToItem, hp, PubField.truthy, hs]

/-- Members of the sorted list are members of the input. -/
theorem sortDesc_mem {α : Type} (key : α → Nat) (l : List α) {a : α}
    (h : a ∈ sortDesc key l) : a ∈ l :=
  (sortDesc_perm key l).mem_iff.mp h

/-- A successful dictionary lookup returns one of the bindings. -/
theorem dictGet_mem {α : Type} {m : List (List Char × α)} {k : List Char}
    {v : α} (h : dictGet m k = some v) : (k, v) ∈ m := by
  induction m with
  | nil => simp [dictGet] at h
  | cons p rest ih =>
    unfold dictGet at h
    split at h
    next he =>
      rw [Option.some.injEq] at h
      rw [← he, ← h]
      exact List.mem_cons_self p rest
    next he => exact List.mem_cons_of_mem p (ih h)

/-- The master feed ignores the wall clock on a well-formed artifact. -/
theorem generate_master_feed_const (n1 n2 : Nat) (r : Report)
    (hw : wellFormedReport r) :
    generate_master_feed n1 r = generate_master_feed n2 r := by
  obtain ⟨⟨t, hca⟩, harts⟩ := hw
  have h1 : formatRfc822 n1 r.collected_at = formatRfc822 n2 r.collected_at := by
    rw [hca]
    rfl
  have h2 : (masterArticles r).map (articleToItem n1) =
      (masterArticles r).map (articleToItem n2) := by
    apply List.map_congr_left
    intro a ha
    apply articleToItem_const
    have hin : a ∈ allArticles r.feeds := sortDesc_mem _ _ ha
    unfold allArticles at hin
    rw [List.mem_bind] at hin
    rcases hin with ⟨p, hp, hmem⟩
    rw [List.mem_map] at hmem
    rcases hmem with ⟨art, hart, rfl⟩
    exact harts p hp art hart
  unfold generate_master_feed create_rss_feed
  rw [h1, h2]

/-- A per-feed channel ignores the wall clock when its feed's dates are
deterministic and the collection instant parses. -/
theorem generate_individual_feed_const (n1 n2 : Nat) (name : List Char)
    (fd : FeedResult) (ca : PubField) (hca : ∃ t, ca = .iso t)
    (harts : ∀ a ∈ fd.articles, pubDeterministic a.published = true) :
    generate_individual_feed n1 name fd ca =
      generate_individual_feed n2 name fd ca := by
  obtain ⟨t, rfl⟩ := hca
  have h2 : (sortDesc (fun a => sortKey a.published)
        (fd.articles.map plainArticle)).map (articleToItem n1) =
      (sortDesc (fun a => sortKey a.published)
        (fd.articles.map plainArticle)).map (articleToItem n2) := by
    apply List.map_congr_left
    intro a ha
    apply articleToItem_const
    have hin := sortDesc_mem _ _ ha
    rw [List.mem_map] at hin
    rcases hin with ⟨art, hart, rfl⟩
    exact harts art hart
  unfold generate_individual_feed create_rss_feed
  rw [h2]
  rfl

/-- C5 (amended) — Rendering determinism on well-formed artifacts: when
`collected_at` parses and no article carries a non-empty unparseable date,
the whole rendering pass (Markdown summary, HTML pages, RSS feeds) is
independent of the wall clock, so re-rendering the same artifact yields
byte-identical output.  (The unamended claim is refuted by
`C5_render_counterexample`: a non-empty unparseable `published` string makes
`format_rfc822_date` embed `datetime.now()`.) -/
theorem C5_render_deterministic (r : Report) (template : List Char)
    (hw : wellFormedReport r) (n1 n2 : Nat) :
    renderRun n1 template r = renderRun n2 template r := by
  unfold renderRun
  refine congrArg (fun x => (generate_markdown_summary r,
    generate_all_pages_writes template r, x)) ?_
  unfold generate_all_feeds_writes
  rw [generate_master_feed_const n1 n2 r hw]
  refine congrArg _ ?_
  apply List.map_congr_left
  intro name _
  refine congrArg _ ?_
  rcases hg : dictGet r.feeds name with _ | fd
  · obtain ⟨t, hct⟩ := hw.1
    rw [hct]
    rfl
  · simp only [Option.getD_some]
    exact generate_individual_feed_const n1 n2 name fd r.collected_at hw.1
      (fun a ha => hw.2 (name, fd) (dictGet_mem hg) a ha)

/-- A concrete artifact with one non-empty unparseable date. -/
def badDateReport : Report :=
  { collected_at := .iso 0
    hours := 720
    feeds := [("F".data, ⟨"u".data, [⟨"a".data, "l".data, .malformed "bad".data⟩], 1⟩)]
    failed_feeds := []
    summary := ⟨1, 1, 0, 1⟩ }

set_option maxRecDepth 20000 in
/-- C5 counterexample — the claim as stated is false: on an artifact with a
non-empty unparseable `published` string, two rendering passes at different
wall-clock instants produce different RSS output (the item's `pubDate` is the
wall clock). -/
theorem C5_render_counterexample :
    renderRun 0 [] badDateReport ≠ renderRun 1 [] badDateReport := by decide

/-- A concrete artifact whose dates all parse. -/
def goodDateReport : Report :=
  { collected_at := .iso 5
    hours := 720
    feeds := [("F".data, ⟨"u".data, [⟨"a".data, "l".data, .iso 3⟩], 1⟩)]
    failed_feeds := []
    summary := ⟨1, 1, 0, 1⟩ }

/-- C5 witness: the amended theorem evaluated on a concrete well-formed
artifact. -/
theorem C5_render_deterministic_witness :
    renderRun 0 [] goodDateReport = renderRun 1 [] goodDateReport :=
  C5_render_deterministic goodDateReport [] ⟨⟨5, rfl⟩, by decide⟩ 0 1

/-! ## Slug collisions and overwrites (C10) -/

/-- An artifact with two distinct feed names that share the slug
`testfeed`. -/
def collisionReport : Report :=
  { collected_at := .iso 0
    hours := 720
    feeds := [("Test@Feed".data, ⟨"u1".data, [], 0⟩),
              ("TestFeed".data, ⟨"u2".data, [], 0⟩)]
    failed_feeds := []
    summary := ⟨2, 2, 0, 0⟩ }

/-- A minimal template: the content placeholder alone. -/
def tinyTemplate : List Char := "<!-- CONTENT_PLACEHOLDER -->".data

set_option maxRecDepth 100000 in
/-- C10 — Slug collisions: `generate_feed_slug` is not injective
(`Test@Feed`/`TestFeed` and `A B`/`a-b` collide); on an artifact containing
the first pair, both `generate_all_pages` and `generate_all_feeds` write the
two feeds' per-feed output to the same path (`feed-testfeed.html` /
`feed-testfeed.xml` each occur twice in the write sequences), the two pages
(and the two channels) differ, and after replaying the writes the file holds
the output of `TestFeed` — the feed processed later in sorted order — so it
overwrote `Test@Feed`'s output. -/
theorem C10_slug_collision :
    generate_feed_slug "Test@Feed" = generate_feed_slug "TestFeed" ∧
    "Test@Feed" ≠ "TestFeed" ∧
    generate_feed_slug "A B" = generate_feed_slug "a-b" ∧
    "A B" ≠ "a-b" ∧
    List.count "feed-testfeed.html".data
      (((generate_all_pages_writes tinyTemplate collisionReport).getD []).map
        Prod.fst) = 2 ∧
    List.count "feed-testfeed.xml".data
      ((generate_all_feeds_writes 0 collisionReport).map Prod.fst) = 2 ∧
    pageAssemble tinyTemplate collisionReport (some "Test@Feed".data) 0 ≠
      pageAssemble tinyTemplate collisionReport (some "TestFeed".data) 0 ∧
    dictGet (applyWrites
        ((generate_all_pages_writes tinyTemplate collisionReport).getD []))
      "feed-testfeed.html".data =
      some (pageAssemble tinyTemplate collisionReport (some "TestFeed".data) 0) ∧
    generate_individual_feed 0 "Test@Feed".data ⟨"u1".data, [], 0⟩ (.iso 0) ≠
      generate_individual_feed 0 "TestFeed".data ⟨"u2".data, [], 0⟩ (.iso 0) ∧
    dictGet (applyWrites (generate_all_feeds_writes 0 collisionReport))
      "feed-testfeed.xml".data =
      some (generate_individual_feed 0 "TestFeed".data ⟨"u2".data, [], 0⟩
        (.iso 0)) := by
  refine ⟨by decide, by decide, by decide, by decide, by decide, by decide,
    by decide, by decide, by decide, by decide⟩

end FeedHub
